import Mathlib

/-!
Verification of the block (un)marshalling logic of the `slack` package
(`block_conv.go`): polymorphic JSON decode/encode for `Blocks`,
`BlockElements`, `Accessory` and `ContextElements`.

The embedding works over parsed JSON values (`Json` below).  Go's
`encoding/json` behaviour that the source relies on is embedded explicitly:

* `json.Unmarshal` into `[]json.RawMessage` succeeds exactly on a JSON
  array (yielding its elements) or JSON `null` (yielding the nil slice);
  every other value is an error.
* `json.Unmarshal` into `map[string]interface{}` succeeds exactly on a
  JSON object (last binding wins for duplicate keys) or JSON `null`
  (leaving the map nil); every other value is an error.
* `obj["type"].(string)` yields the string value of the `type` key when it
  is a JSON string, and the type-assertion fails (leaving `""`) otherwise.
* `json.Marshal` of a nil slice or a nil interface yields JSON `null`.

The concrete block/element structures (`ActionBlock`, `ButtonBlockElement`,
…) are defined in another file of the repository that is not part of this
core; they are external collaborators here.  Each is modelled as a wrapper
around the JSON payload it decoded from, and the concrete per-variant
decoders/encoders are parameters (`Codec` records), reflecting the
collaborator contract: the core only chooses *which* concrete decoder to
invoke, never how it treats its own fields.
-/

set_option autoImplicit false

namespace SlackBlocks

/-- A parsed JSON value.  Objects keep their bindings in textual order so
that Go's "last duplicate key wins" map semantics can be expressed. -/
inductive Json where
  | null
  | bool (b : Bool)
  | num (n : Int)
  | str (s : String)
  | arr (elems : List Json)
  | obj (fields : List (String × Json))

/-- Whether a JSON value is an object. -/
def Json.isObj : Json → Bool
  | .obj _ => true
  | _ => false

/-- Whether a JSON value is an object or `null` (the two shapes
`json.Unmarshal` accepts for a `map[string]interface{}` target). -/
def Json.isObjOrNull : Json → Bool
  | .obj _ => true
  | .null => true
  | _ => false

/-- Go map semantics for duplicate JSON object keys: the last binding for a
key is the one stored in the map. -/
def lookupField (fields : List (String × Json)) (k : String) : Option Json :=
  ((fields.filter (fun p => p.1 == k)).getLast?).map (fun p => p.2)

/-- `json.Unmarshal(data, &raw)` for `raw []json.RawMessage`: a JSON array
yields its elements, JSON `null` yields the nil slice, anything else is a
decode error. -/
def unmarshalRawArray : Json → Except String (List Json)
  | .arr elems => .ok elems
  | .null => .ok []
  | _ => .error "cannot unmarshal value into Go value of type []json.RawMessage"

/-- `json.Unmarshal(r, &obj)` for `obj map[string]interface{}`: a JSON
object yields its bindings (`some`), JSON `null` leaves the map nil
(`none`), anything else is a decode error. -/
def unmarshalObjMap : Json → Except String (Option (List (String × Json)))
  | .obj fields => .ok (some fields)
  | .null => .ok none
  | _ => .error "cannot unmarshal value into Go value of type map-string-interface"

/-- `obj["type"].(string)` with a `""` default: the `type` discriminator of
a decoded generic object, or `""` when the map is nil, the key is absent,
or its value is not a JSON string. -/
def getType : Option (List (String × Json)) → String
  | none => ""
  | some fields =>
    match lookupField fields "type" with
    | some (.str s) => s
    | _ => ""

/-- The discriminator a decode loop extracts from a raw element, when the
element survives the generic `map[string]interface{}` pass. -/
def rawType (r : Json) : String :=
  match unmarshalObjMap r with
  | .ok o => getType o
  | .error _ => ""

/- Concrete variant structures.  Modelled from the spec: the field layouts
of the individual block/element kinds live outside this core ("each
concrete variant structure must support standard structural decode/encode
against its own fixed JSON shape"); each is represented by the JSON
payload its decoder produced it from. -/

/-- Modelled from the spec: the `actions` block kind, payload abstracted. -/
structure ActionBlock where
  raw : Json

/-- Modelled from the spec: the `context` block kind, payload abstracted. -/
structure ContextBlock where
  raw : Json

/-- Modelled from the spec: the `divider` block kind, payload abstracted. -/
structure DividerBlock where
  raw : Json

/-- Modelled from the spec: the `image` block kind, payload abstracted. -/
structure ImageBlock where
  raw : Json

/-- Modelled from the spec: the `section` block kind, payload abstracted. -/
structure SectionBlock where
  raw : Json

/-- Modelled from the spec: the `image` block element, payload abstracted. -/
structure ImageBlockElement where
  raw : Json

/-- Modelled from the spec: the `button` block element, payload abstracted. -/
structure ButtonBlockElement where
  raw : Json

/-- Modelled from the spec: the `overflow` block element, payload abstracted. -/
structure OverflowBlockElement where
  raw : Json

/-- Modelled from the spec: the `datepicker` block element, payload abstracted. -/
structure DatePickerBlockElement where
  raw : Json

/-- Modelled from the spec: the `static_select` block element, payload abstracted. -/
structure SelectBlockElement where
  raw : Json

/-- Modelled from the spec: a text object (plain text or markdown), payload
abstracted. -/
structure TextBlockObject where
  raw : Json

/-- Modelled from the spec: discriminator constant for plain-text text
objects (value from the spec's ContextElements example). -/
def PlainTextType : String := "plain_text"

/-- Modelled from the spec: discriminator constant for markdown text
objects (value from the spec's ContextElements example). -/
def MarkdownType : String := "mrkdwn"

/-- Modelled from the spec: the standard decode/encode pair of one concrete
variant structure — `dec` is `json.Unmarshal` into a fresh value of that
structure (`unmarshalBlock` / `unmarshalBlockElement` / `unmarshalBlockObject`
delegate to it), `enc` is `json.Marshal` of the value. -/
structure Codec (α : Type) where
  dec : Json → Except String α
  enc : α → Json

/-- The per-variant codecs the `Blocks` container dispatches to. -/
structure BlockCodecs where
  action : Codec ActionBlock
  context : Codec ContextBlock
  divider : Codec DividerBlock
  image : Codec ImageBlock
  sectionC : Codec SectionBlock

/-- The per-variant codecs the `BlockElements` and `Accessory` containers
dispatch to. -/
structure ElemCodecs where
  image : Codec ImageBlockElement
  button : Codec ButtonBlockElement
  overflow : Codec OverflowBlockElement
  datepicker : Codec DatePickerBlockElement
  selectC : Codec SelectBlockElement

/-- The per-variant codecs the `ContextElements` container dispatches to. -/
structure ContextCodecs where
  image : Codec ImageBlockElement
  text : Codec TextBlockObject

/-- The `Block` interface: one of the five registered block kinds, or any
other implementation of the interface (unregistered in the closed switch). -/
inductive Block where
  | action (b : ActionBlock)
  | context (b : ContextBlock)
  | divider (b : DividerBlock)
  | image (b : ImageBlock)
  | sectionB (b : SectionBlock)
  | unknown (raw : Json)

/-- The `BlockElement` interface: one of the five registered element kinds,
or any other implementation of the interface. -/
inductive BlockElement where
  | image (e : ImageBlockElement)
  | button (e : ButtonBlockElement)
  | overflow (e : OverflowBlockElement)
  | datepicker (e : DatePickerBlockElement)
  | staticSelect (e : SelectBlockElement)
  | unknown (raw : Json)

/-- The `mixedElement` interface of context blocks: an image element or a
text object. -/
inductive mixedElement where
  | image (e : ImageBlockElement)
  | text (t : TextBlockObject)

/-- The `Blocks` container: per-kind accumulators, in field declaration
order. -/
structure Blocks where
  ActionBlocks : List ActionBlock
  ContextBlocks : List ContextBlock
  DividerBlocks : List DividerBlock
  ImageBlocks : List ImageBlock
  SectionBlocks : List SectionBlock

/-- The `BlockElements` container: per-kind accumulators, in field
declaration order. -/
structure BlockElements where
  ImageElements : List ImageBlockElement
  ButtonElements : List ButtonBlockElement
  OverflowElements : List OverflowBlockElement
  DatePickerElements : List DatePickerBlockElement
  SelectElements : List SelectBlockElement

/-- The `Accessory` single-slot container. -/
structure Accessory where
  ImageElement : Option ImageBlockElement
  ButtonElement : Option ButtonBlockElement
  OverflowElement : Option OverflowBlockElement
  DatePickerElement : Option DatePickerBlockElement
  SelectElement : Option SelectBlockElement

/-- The `ContextElements` container. -/
structure ContextElements where
  ImageElements : List ImageBlockElement
  TextObjects : List TextBlockObject

/-- The zero value of `Blocks` (a fresh container). -/
def Blocks.empty : Blocks := ⟨[], [], [], [], []⟩

/-- The zero value of `BlockElements` (a fresh container). -/
def BlockElements.empty : BlockElements := ⟨[], [], [], [], []⟩

/-- The zero value of `Accessory` (a fresh container). -/
def Accessory.empty : Accessory := ⟨none, none, none, none, none⟩

/-- The zero value of `ContextElements` (a fresh container). -/
def ContextElements.empty : ContextElements := ⟨[], []⟩

/- Decoding.  Each `UnmarshalJSON` loop in the source has the same outer
shape — generic object pass, `type` extraction, a `switch` whose recognized
cases decode concretely and append to an accumulator and whose default
silently skips — differing only in the switch.  `processRaw` is that shared
loop; the per-container switches follow it.  A switch case is embedded as
an `Except`-valued state update so that the Go pattern "return err /
append and continue" is explicit. -/

/-- One `for`-iteration body minus the switch: decode the raw element into
a generic map and hand the extracted discriminator to the switch. -/
def rawStep {σ : Type} (step : String → Json → Except String (σ → σ))
    (r : Json) : Except String (σ → σ) :=
  match unmarshalObjMap r with
  | .error e => .error e
  | .ok o => step (getType o) r

/-- The shared decode loop: on a decode error the loop `return err`s,
leaving the receiver in its current (possibly partially appended) state;
otherwise the switch's update is applied and the loop continues. -/
def processRaw {σ : Type} (step : String → Json → Except String (σ → σ)) :
    List Json → σ → σ × Option String
  | [], s => (s, none)
  | r :: rest, s =>
    match rawStep step r with
    | .error e => (s, some e)
    | .ok f => processRaw step rest (f s)

/-- The `switch blockType` of `Blocks.UnmarshalJSON`: each recognized case
decodes via the variant's codec (`unmarshalBlock`) and appends to that
kind's accumulator; the default case skips the element. -/
def blockSwitch (C : BlockCodecs) (t : String) (r : Json) :
    Except String (Blocks → Blocks) :=
  if t = "actions" then
    (C.action.dec r).map (fun bl b => { b with ActionBlocks := b.ActionBlocks ++ [bl] })
  else if t = "context" then
    (C.context.dec r).map (fun bl b => { b with ContextBlocks := b.ContextBlocks ++ [bl] })
  else if t = "divider" then
    (C.divider.dec r).map (fun bl b => { b with DividerBlocks := b.DividerBlocks ++ [bl] })
  else if t = "image" then
    (C.image.dec r).map (fun bl b => { b with ImageBlocks := b.ImageBlocks ++ [bl] })
  else if t = "section" then
    (C.sectionC.dec r).map (fun bl b => { b with SectionBlocks := b.SectionBlocks ++ [bl] })
  else
    .ok id

/-- `Blocks.UnmarshalJSON`: outer array pass, then the shared loop.  The
returned `Blocks` is the receiver's final state (Go mutates the receiver in
place); the `Option String` is the returned error. -/
def Blocks.UnmarshalJSON (C : BlockCodecs) (b : Blocks) (data : Json) :
    Blocks × Option String :=
  match unmarshalRawArray data with
  | .error e => (b, some e)
  | .ok raw => processRaw (blockSwitch C) raw b

/-- The `switch blockElementType` of `BlockElements.UnmarshalJSON`. -/
def elemSwitch (C : ElemCodecs) (t : String) (r : Json) :
    Except String (BlockElements → BlockElements) :=
  if t = "image" then
    (C.image.dec r).map (fun el e => { e with ImageElements := e.ImageElements ++ [el] })
  else if t = "button" then
    (C.button.dec r).map (fun el e => { e with ButtonElements := e.ButtonElements ++ [el] })
  else if t = "overflow" then
    (C.overflow.dec r).map (fun el e => { e with OverflowElements := e.OverflowElements ++ [el] })
  else if t = "datepicker" then
    (C.datepicker.dec r).map (fun el e => { e with DatePickerElements := e.DatePickerElements ++ [el] })
  else if t = "static_select" then
    (C.selectC.dec r).map (fun el e => { e with SelectElements := e.SelectElements ++ [el] })
  else
    .ok id

/-- `BlockElements.UnmarshalJSON`. -/
def BlockElements.UnmarshalJSON (C : ElemCodecs) (b : BlockElements)
    (data : Json) : BlockElements × Option String :=
  match unmarshalRawArray data with
  | .error e => (b, some e)
  | .ok raw => processRaw (elemSwitch C) raw b

/-- The `switch contextElementType` of `ContextElements.UnmarshalJSON`:
`PlainTextType` and `MarkdownType` share the text-object case
(`unmarshalBlockObject`), `"image"` decodes an image element. -/
def contextSwitch (C : ContextCodecs) (t : String) (r : Json) :
    Except String (ContextElements → ContextElements) :=
  if t = PlainTextType ∨ t = MarkdownType then
    (C.text.dec r).map (fun el e => { e with TextObjects := e.TextObjects ++ [el] })
  else if t = "image" then
    (C.image.dec r).map (fun el e => { e with ImageElements := e.ImageElements ++ [el] })
  else
    .ok id

/-- `ContextElements.UnmarshalJSON`. -/
def ContextElements.UnmarshalJSON (C : ContextCodecs) (e : ContextElements)
    (data : Json) : ContextElements × Option String :=
  match unmarshalRawArray data with
  | .error e' => (e, some e')
  | .ok raw => processRaw (contextSwitch C) raw e

/-- `Accessory.UnmarshalJSON`: the input is first captured as a single
`json.RawMessage` (which accepts any JSON value), then decoded generically
for the discriminator, then the matching single slot is assigned; an
unrecognized discriminator leaves the receiver untouched and returns no
error. -/
def Accessory.UnmarshalJSON (C : ElemCodecs) (a : Accessory) (data : Json) :
    Accessory × Option String :=
  match unmarshalObjMap data with
  | .error e => (a, some e)
  | .ok o =>
    let t := getType o
    if t = "image" then
      match C.image.dec data with
      | .error e => (a, some e)
      | .ok el => ({ a with ImageElement := some el }, none)
    else if t = "button" then
      match C.button.dec data with
      | .error e => (a, some e)
      | .ok el => ({ a with ButtonElement := some el }, none)
    else if t = "overflow" then
      match C.overflow.dec data with
      | .error e => (a, some e)
      | .ok el => ({ a with OverflowElement := some el }, none)
    else if t = "datepicker" then
      match C.datepicker.dec data with
      | .error e => (a, some e)
      | .ok el => ({ a with DatePickerElement := some el }, none)
    else if t = "static_select" then
      match C.selectC.dec data with
      | .error e => (a, some e)
      | .ok el => ({ a with SelectElement := some el }, none)
    else
      (a, none)

/- Encoding. -/

/-- `json.Marshal` of the accumulated `[]BlockElement` / `[]mixedElement`
slice, applied to the already-encoded elements: the slice starts nil and is
only appended to, so an empty slice is the nil slice, which Go marshals as
JSON `null`; otherwise a JSON array. -/
def marshalSlice (xs : List Json) : Json :=
  match xs with
  | [] => .null
  | _ => .arr xs

/-- `json.Marshal` of one `BlockElement` interface value: delegated to the
concrete element's own encoder. -/
def encodeBlockElement (C : ElemCodecs) : BlockElement → Json
  | .image e => C.image.enc e
  | .button e => C.button.enc e
  | .overflow e => C.overflow.enc e
  | .datepicker e => C.datepicker.enc e
  | .staticSelect e => C.selectC.enc e
  | .unknown raw => raw

/-- `toBlockElementSlice`: concatenate the per-kind accumulators, in field
order image, button, overflow, date-picker, select. -/
def toBlockElementSlice (elements : BlockElements) : List BlockElement :=
  elements.ImageElements.map .image ++ elements.ButtonElements.map .button ++
    elements.OverflowElements.map .overflow ++
    elements.DatePickerElements.map .datepicker ++
    elements.SelectElements.map .staticSelect

/-- `BlockElements.MarshalJSON`: `json.Marshal(toBlockElementSlice(e))`. -/
def BlockElements.MarshalJSON (C : ElemCodecs) (e : BlockElements) : Json :=
  marshalSlice ((toBlockElementSlice e).map (encodeBlockElement C))

/-- `toBlockElement`: the first populated slot in the order image, button,
overflow, date-picker, select, or the nil interface when none is. -/
def toBlockElement (element : Accessory) : Option BlockElement :=
  match element.ImageElement with
  | some e => some (.image e)
  | none =>
    match element.ButtonElement with
    | some e => some (.button e)
    | none =>
      match element.OverflowElement with
      | some e => some (.overflow e)
      | none =>
        match element.DatePickerElement with
        | some e => some (.datepicker e)
        | none =>
          match element.SelectElement with
          | some e => some (.staticSelect e)
          | none => none

/-- `Accessory.MarshalJSON`: `json.Marshal(toBlockElement(a))`; the nil
interface marshals as JSON `null`. -/
def Accessory.MarshalJSON (C : ElemCodecs) (a : Accessory) : Json :=
  match toBlockElement a with
  | none => .null
  | some el => encodeBlockElement C el

/-- `json.Marshal` of one `mixedElement` interface value. -/
def encodeMixedElement (C : ContextCodecs) : mixedElement → Json
  | .image e => C.image.enc e
  | .text t => C.text.enc t

/-- `toMixedElements`: all image elements, then all text objects. -/
def toMixedElements (elements : ContextElements) : List mixedElement :=
  elements.ImageElements.map .image ++ elements.TextObjects.map .text

/-- `ContextElements.MarshalJSON`: `json.Marshal(toMixedElements(e))`. -/
def ContextElements.MarshalJSON (C : ContextCodecs) (e : ContextElements) : Json :=
  marshalSlice ((toMixedElements e).map (encodeMixedElement C))

/- Append operations. -/

/-- One iteration of `appendToBlocks`' type switch: a recognized variant is
appended to its accumulator, any other `Block` implementation is ignored. -/
def appendOneBlock (b : Blocks) : Block → Blocks
  | .action bl => { b with ActionBlocks := b.ActionBlocks ++ [bl] }
  | .context bl => { b with ContextBlocks := b.ContextBlocks ++ [bl] }
  | .divider bl => { b with DividerBlocks := b.DividerBlocks ++ [bl] }
  | .image bl => { b with ImageBlocks := b.ImageBlocks ++ [bl] }
  | .sectionB bl => { b with SectionBlocks := b.SectionBlocks ++ [bl] }
  | .unknown _ => b

/-- `Blocks.appendToBlocks`. -/
def Blocks.appendToBlocks : Blocks → List Block → Blocks
  | b, [] => b
  | b, bl :: rest => Blocks.appendToBlocks (appendOneBlock b bl) rest

/-- One iteration of `appendToBlockElements`' type switch. -/
def appendOneBlockElement (e : BlockElements) : BlockElement → BlockElements
  | .image el => { e with ImageElements := e.ImageElements ++ [el] }
  | .button el => { e with ButtonElements := e.ButtonElements ++ [el] }
  | .overflow el => { e with OverflowElements := e.OverflowElements ++ [el] }
  | .datepicker el => { e with DatePickerElements := e.DatePickerElements ++ [el] }
  | .staticSelect el => { e with SelectElements := e.SelectElements ++ [el] }
  | .unknown _ => e

/-- `BlockElements.appendToBlockElements`. -/
def BlockElements.appendToBlockElements : BlockElements → List BlockElement → BlockElements
  | e, [] => e
  | e, el :: rest => BlockElements.appendToBlockElements (appendOneBlockElement e el) rest

/- Specification-side helpers used to state properties of the loops. -/

/-- Whether an `Except` result is a success. -/
def exceptOk {ε α : Type} : Except ε α → Bool
  | .ok _ => true
  | .error _ => false

/-- The value of a successful `Except` result. -/
def exOption {ε α : Type} : Except ε α → Option α
  | .ok a => some a
  | .error _ => none

/-- The state the shared loop reaches when no element errors: fold the
successful updates over the list. -/
def okRun {σ : Type} (step : String → Json → Except String (σ → σ))
    (rs : List Json) (s : σ) : σ :=
  rs.foldl (fun s r =>
    match rawStep step r with
    | .ok f => f s
    | .error _ => s) s

/-- The concrete values one kind's accumulator collects from a raw array:
the elements whose discriminator the kind recognizes, decoded. -/
def decs {α : Type} (rec : String → Bool) (d : Json → Except String α)
    (js : List Json) : List α :=
  js.filterMap (fun j => if rec (rawType j) then exOption (d j) else none)

@[simp]
theorem decs_nil {α : Type} (rec : String → Bool) (d : Json → Except String α) :
    decs rec d [] = [] := rfl

theorem decs_cons_pos {α : Type} (rec : String → Bool)
    (d : Json → Except String α) (j : Json) (js : List Json) (x : α)
    (h1 : rec (rawType j) = true) (h2 : d j = .ok x) :
    decs rec d (j :: js) = x :: decs rec d js := by
  simp [decs, h1, h2, exOption]

theorem decs_cons_neg {α : Type} (rec : String → Bool)
    (d : Json → Except String α) (j : Json) (js : List Json)
    (h1 : rec (rawType j) = false) :
    decs rec d (j :: js) = decs rec d js := by
  simp [decs, h1]

theorem exceptOk_iff {ε α : Type} (x : Except ε α) :
    exceptOk x = true ↔ ∃ a, x = .ok a := by
  cases x <;> simp [exceptOk]

/-- A clean run of the shared loop: no element errors, the final state is
the fold of the updates, the returned error is `nil`. -/
theorem processRaw_eq_okRun {σ : Type}
    (step : String → Json → Except String (σ → σ)) (rs : List Json) (s : σ)
    (h : ∀ r ∈ rs, exceptOk (rawStep step r) = true) :
    processRaw step rs s = (okRun step rs s, none) := by
  induction rs generalizing s with
  | nil => rfl
  | cons r rest ih =>
    have hr := h r (by simp)
    rcases (exceptOk_iff _).mp hr with ⟨f, hf⟩
    simp only [processRaw, okRun, List.foldl_cons, hf]
    exact ih (f s) (fun r' hr' => h r' (by simp [hr']))

/-- A failing run of the shared loop: the first erroring element aborts the
loop with an error, and the receiver keeps exactly the updates of the
elements before it. -/
theorem processRaw_fail {σ : Type}
    (step : String → Json → Except String (σ → σ)) (pre post : List Json)
    (bad : Json) (s : σ)
    (hpre : ∀ r ∈ pre, exceptOk (rawStep step r) = true)
    (hbad : exceptOk (rawStep step bad) = false) :
    (processRaw step (pre ++ bad :: post) s).1 = okRun step pre s ∧
      (processRaw step (pre ++ bad :: post) s).2.isSome = true := by
  induction pre generalizing s with
  | nil =>
    match hb : rawStep step bad with
    | .ok f => rw [hb] at hbad; simp [exceptOk] at hbad
    | .error e => simp [processRaw, hb, okRun]
  | cons r rest ih =>
    have hr := hpre r (by simp)
    rcases (exceptOk_iff _).mp hr with ⟨f, hf⟩
    simp only [List.cons_append, processRaw, okRun, List.foldl_cons, hf]
    exact ih (f s) (fun r' hr' => hpre r' (by simp [hr']))

/-- When an element survives the generic object pass (it is an object or
`null`), the loop body is exactly the switch applied to its discriminator. -/
theorem rawStep_objOrNull {σ : Type}
    (step : String → Json → Except String (σ → σ)) (j : Json)
    (hj : j.isObjOrNull = true) : rawStep step j = step (rawType j) j := by
  cases j <;> first | rfl | simp [Json.isObjOrNull] at hj

/-- Skipped elements are invisible to the shared loop: an element whose
switch case is the silent default can be removed from the raw array without
changing the outcome. -/
theorem processRaw_skip {σ : Type}
    (step : String → Json → Except String (σ → σ)) (j : Json)
    (hj : rawStep step j = .ok id) (pre post : List Json) (s : σ) :
    processRaw step (pre ++ j :: post) s = processRaw step (pre ++ post) s := by
  induction pre generalizing s with
  | nil => simp [processRaw, hj]
  | cons r rest ih =>
    simp only [List.cons_append, processRaw]
    match hr : rawStep step r with
    | .error e => rfl
    | .ok f => exact ih (f s)

/-- Every recognized element of the raw array decodes successfully under
the given codecs (`Blocks` dispatch). -/
def blocksDecOk (C : BlockCodecs) (j : Json) : Bool :=
  if rawType j = "actions" then exceptOk (C.action.dec j)
  else if rawType j = "context" then exceptOk (C.context.dec j)
  else if rawType j = "divider" then exceptOk (C.divider.dec j)
  else if rawType j = "image" then exceptOk (C.image.dec j)
  else if rawType j = "section" then exceptOk (C.sectionC.dec j)
  else true

/-- Full characterisation of the `Blocks` decode loop on an array of
objects (or `null`s) whose recognized elements all decode: no error, and
each accumulator extends by exactly the decoded elements of its kind, in
their original relative order. -/
theorem blocks_char (C : BlockCodecs) (js : List Json) (b : Blocks)
    (hobj : ∀ j ∈ js, j.isObjOrNull = true)
    (hdec : ∀ j ∈ js, blocksDecOk C j = true) :
    processRaw (blockSwitch C) js b =
      (⟨b.ActionBlocks ++ decs (fun t => t == "actions") C.action.dec js,
        b.ContextBlocks ++ decs (fun t => t == "context") C.context.dec js,
        b.DividerBlocks ++ decs (fun t => t == "divider") C.divider.dec js,
        b.ImageBlocks ++ decs (fun t => t == "image") C.image.dec js,
        b.SectionBlocks ++ decs (fun t => t == "section") C.sectionC.dec js⟩,
        none) := by
  induction js generalizing b with
  | nil => simp [processRaw]
  | cons j rest ih =>
    have hj := hobj j (by simp)
    have hd := hdec j (by simp)
    have hobj' : ∀ r ∈ rest, r.isObjOrNull = true :=
      fun r hr => hobj r (by simp [hr])
    have hdec' : ∀ r ∈ rest, blocksDecOk C r = true :=
      fun r hr => hdec r (by simp [hr])
    rw [processRaw, rawStep_objOrNull _ j hj]
    unfold blocksDecOk at hd
    by_cases h1 : rawType j = "actions"
    · rw [if_pos h1] at hd
      rcases (exceptOk_iff _).mp hd with ⟨x, hx⟩
      rw [decs_cons_pos _ _ _ _ x (by simp [h1]) hx,
        decs_cons_neg _ _ _ _ (by simp [h1]), decs_cons_neg _ _ _ _ (by simp [h1]),
        decs_cons_neg _ _ _ _ (by simp [h1]), decs_cons_neg _ _ _ _ (by simp [h1])]
      simp only [blockSwitch, h1, hx, Except.map, String.reduceEq, if_pos, if_true]
      rw [ih _ hobj' hdec']
      simp
    · rw [if_neg h1] at hd
      by_cases h2 : rawType j = "context"
      · rw [if_pos h2] at hd
        rcases (exceptOk_iff _).mp hd with ⟨x, hx⟩
        rw [decs_cons_neg _ _ _ _ (by simp [h2]),
          decs_cons_pos _ _ _ _ x (by simp [h2]) hx,
          decs_cons_neg _ _ _ _ (by simp [h2]), decs_cons_neg _ _ _ _ (by simp [h2]),
          decs_cons_neg _ _ _ _ (by simp [h2])]
        simp only [blockSwitch, h2, hx, Except.map, String.reduceEq, reduceIte]
        rw [ih _ hobj' hdec']
        simp
      · rw [if_neg h2] at hd
        by_cases h3 : rawType j = "divider"
        · rw [if_pos h3] at hd
          rcases (exceptOk_iff _).mp hd with ⟨x, hx⟩
          rw [decs_cons_neg _ _ _ _ (by simp [h3]), decs_cons_neg _ _ _ _ (by simp [h3]),
            decs_cons_pos _ _ _ _ x (by simp [h3]) hx,
            decs_cons_neg _ _ _ _ (by simp [h3]), decs_cons_neg _ _ _ _ (by simp [h3])]
          simp only [blockSwitch, h3, hx, Except.map, String.reduceEq, reduceIte]
          rw [ih _ hobj' hdec']
          simp
        · rw [if_neg h3] at hd
          by_cases h4 : rawType j = "image"
          · rw [if_pos h4] at hd
            rcases (exceptOk_iff _).mp hd with ⟨x, hx⟩
            rw [decs_cons_neg _ _ _ _ (by simp [h4]), decs_cons_neg _ _ _ _ (by simp [h4]),
              decs_cons_neg _ _ _ _ (by simp [h4]),
              decs_cons_pos _ _ _ _ x (by simp [h4]) hx,
              decs_cons_neg _ _ _ _ (by simp [h4])]
            simp only [blockSwitch, h4, hx, Except.map, String.reduceEq, reduceIte]
            rw [ih _ hobj' hdec']
            simp
          · rw [if_neg h4] at hd
            by_cases h5 : rawType j = "section"
            · rw [if_pos h5] at hd
              rcases (exceptOk_iff _).mp hd with ⟨x, hx⟩
              rw [decs_cons_neg _ _ _ _ (by simp [h5]), decs_cons_neg _ _ _ _ (by simp [h5]),
                decs_cons_neg _ _ _ _ (by simp [h5]), decs_cons_neg _ _ _ _ (by simp [h5]),
                decs_cons_pos _ _ _ _ x (by simp [h5]) hx]
              simp only [blockSwitch, h5, hx, Except.map, String.reduceEq, reduceIte]
              rw [ih _ hobj' hdec']
              simp
            · rw [decs_cons_neg _ _ _ _ (by simp [h1]), decs_cons_neg _ _ _ _ (by simp [h2]),
                decs_cons_neg _ _ _ _ (by simp [h3]), decs_cons_neg _ _ _ _ (by simp [h4]),
                decs_cons_neg _ _ _ _ (by simp [h5])]
              simp only [blockSwitch, if_neg h1, if_neg h2, if_neg h3, if_neg h4, if_neg h5]
              exact ih b hobj' hdec'

/-- Every recognized element of the raw array decodes successfully under
the given codecs (`BlockElements` dispatch). -/
def elemsDecOk (C : ElemCodecs) (j : Json) : Bool :=
  if rawType j = "image" then exceptOk (C.image.dec j)
  else if rawType j = "button" then exceptOk (C.button.dec j)
  else if rawType j = "overflow" then exceptOk (C.overflow.dec j)
  else if rawType j = "datepicker" then exceptOk (C.datepicker.dec j)
  else if rawType j = "static_select" then exceptOk (C.selectC.dec j)
  else true

/-- Full characterisation of the `BlockElements` decode loop, analogous to
`blocks_char`. -/
theorem elems_char (C : ElemCodecs) (js : List Json) (b : BlockElements)
    (hobj : ∀ j ∈ js, j.isObjOrNull = true)
    (hdec : ∀ j ∈ js, elemsDecOk C j = true) :
    processRaw (elemSwitch C) js b =
      (⟨b.ImageElements ++ decs (fun t => t == "image") C.image.dec js,
        b.ButtonElements ++ decs (fun t => t == "button") C.button.dec js,
        b.OverflowElements ++ decs (fun t => t == "overflow") C.overflow.dec js,
        b.DatePickerElements ++ decs (fun t => t == "datepicker") C.datepicker.dec js,
        b.SelectElements ++ decs (fun t => t == "static_select") C.selectC.dec js⟩,
        none) := by
  induction js generalizing b with
  | nil => simp [processRaw]
  | cons j rest ih =>
    have hj := hobj j (by simp)
    have hd := hdec j (by simp)
    have hobj' : ∀ r ∈ rest, r.isObjOrNull = true :=
      fun r hr => hobj r (by simp [hr])
    have hdec' : ∀ r ∈ rest, elemsDecOk C r = true :=
      fun r hr => hdec r (by simp [hr])
    rw [processRaw, rawStep_objOrNull _ j hj]
    unfold elemsDecOk at hd
    by_cases h1 : rawType j = "image"
    · rw [if_pos h1] at hd
      rcases (exceptOk_iff _).mp hd with ⟨x, hx⟩
      rw [decs_cons_pos _ _ _ _ x (by simp [h1]) hx,
        decs_cons_neg _ _ _ _ (by simp [h1]), decs_cons_neg _ _ _ _ (by simp [h1]),
        decs_cons_neg _ _ _ _ (by simp [h1]), decs_cons_neg _ _ _ _ (by simp [h1])]
      simp only [elemSwitch, h1, hx, Except.map, String.reduceEq, reduceIte]
      rw [ih _ hobj' hdec']
      simp
    · rw [if_neg h1] at hd
      by_cases h2 : rawType j = "button"
      · rw [if_pos h2] at hd
        rcases (exceptOk_iff _).mp hd with ⟨x, hx⟩
        rw [decs_cons_neg _ _ _ _ (by simp [h2]),
          decs_cons_pos _ _ _ _ x (by simp [h2]) hx,
          decs_cons_neg _ _ _ _ (by simp [h2]), decs_cons_neg _ _ _ _ (by simp [h2]),
          decs_cons_neg _ _ _ _ (by simp [h2])]
        simp only [elemSwitch, h2, hx, Except.map, String.reduceEq, reduceIte]
        rw [ih _ hobj' hdec']
        simp
      · rw [if_neg h2] at hd
        by_cases h3 : rawType j = "overflow"
        · rw [if_pos h3] at hd
          rcases (exceptOk_iff _).mp hd with ⟨x, hx⟩
          rw [decs_cons_neg _ _ _ _ (by simp [h3]), decs_cons_neg _ _ _ _ (by simp [h3]),
            decs_cons_pos _ _ _ _ x (by simp [h3]) hx,
            decs_cons_neg _ _ _ _ (by simp [h3]), decs_cons_neg _ _ _ _ (by simp [h3])]
          simp only [elemSwitch, h3, hx, Except.map, String.reduceEq, reduceIte]
          rw [ih _ hobj' hdec']
          simp
        · rw [if_neg h3] at hd
          by_cases h4 : rawType j = "datepicker"
          · rw [if_pos h4] at hd
            rcases (exceptOk_iff _).mp hd with ⟨x, hx⟩
            rw [decs_cons_neg _ _ _ _ (by simp [h4]), decs_cons_neg _ _ _ _ (by simp [h4]),
              decs_cons_neg _ _ _ _ (by simp [h4]),
              decs_cons_pos _ _ _ _ x (by simp [h4]) hx,
              decs_cons_neg _ _ _ _ (by simp [h4])]
            simp only [elemSwitch, h4, hx, Except.map, String.reduceEq, reduceIte]
            rw [ih _ hobj' hdec']
            simp
          · rw [if_neg h4] at hd
            by_cases h5 : rawType j = "static_select"
            · rw [if_pos h5] at hd
              rcases (exceptOk_iff _).mp hd with ⟨x, hx⟩
              rw [decs_cons_neg _ _ _ _ (by simp [h5]), decs_cons_neg _ _ _ _ (by simp [h5]),
                decs_cons_neg _ _ _ _ (by simp [h5]), decs_cons_neg _ _ _ _ (by simp [h5]),
                decs_cons_pos _ _ _ _ x (by simp [h5]) hx]
              simp only [elemSwitch, h5, hx, Except.map, String.reduceEq, reduceIte]
              rw [ih _ hobj' hdec']
              simp
            · rw [decs_cons_neg _ _ _ _ (by simp [h1]), decs_cons_neg _ _ _ _ (by simp [h2]),
                decs_cons_neg _ _ _ _ (by simp [h3]), decs_cons_neg _ _ _ _ (by simp [h4]),
                decs_cons_neg _ _ _ _ (by simp [h5])]
              simp only [elemSwitch, if_neg h1, if_neg h2, if_neg h3, if_neg h4, if_neg h5]
              exact ih b hobj' hdec'

/-- Every recognized element of the raw array decodes successfully under
the given codecs (`ContextElements` dispatch). -/
def contextDecOk (C : ContextCodecs) (j : Json) : Bool :=
  if rawType j = PlainTextType ∨ rawType j = MarkdownType then exceptOk (C.text.dec j)
  else if rawType j = "image" then exceptOk (C.image.dec j)
  else true

/-- Full characterisation of the `ContextElements` decode loop, analogous
to `blocks_char`. -/
theorem context_char (C : ContextCodecs) (js : List Json) (e : ContextElements)
    (hobj : ∀ j ∈ js, j.isObjOrNull = true)
    (hdec : ∀ j ∈ js, contextDecOk C j = true) :
    processRaw (contextSwitch C) js e =
      (⟨e.ImageElements ++ decs (fun t => t == "image") C.image.dec js,
        e.TextObjects ++
          decs (fun t => t == PlainTextType || t == MarkdownType) C.text.dec js⟩,
        none) := by
  induction js generalizing e with
  | nil => simp [processRaw]
  | cons j rest ih =>
    have hj := hobj j (by simp)
    have hd := hdec j (by simp)
    have hobj' : ∀ r ∈ rest, r.isObjOrNull = true :=
      fun r hr => hobj r (by simp [hr])
    have hdec' : ∀ r ∈ rest, contextDecOk C r = true :=
      fun r hr => hdec r (by simp [hr])
    rw [processRaw, rawStep_objOrNull _ j hj]
    unfold contextDecOk at hd
    by_cases h1 : rawType j = PlainTextType ∨ rawType j = MarkdownType
    · rw [if_pos h1] at hd
      rcases (exceptOk_iff _).mp hd with ⟨x, hx⟩
      have himg : (rawType j == "image") = false := by
        rcases h1 with h1 | h1 <;> simp [h1, PlainTextType, MarkdownType]
      have htxt : (rawType j == PlainTextType || rawType j == MarkdownType) = true := by
        rcases h1 with h1 | h1 <;> simp [h1]
      rw [decs_cons_neg _ _ _ _ himg, decs_cons_pos _ _ _ _ x htxt hx]
      simp only [contextSwitch, if_pos h1, hx, Except.map]
      rw [ih _ hobj' hdec']
      simp
    · rw [if_neg h1] at hd
      have htxt : (rawType j == PlainTextType || rawType j == MarkdownType) = false := by
        rcases not_or.mp h1 with ⟨ha, hb⟩
        simp [ha, hb]
      by_cases h2 : rawType j = "image"
      · rw [if_pos h2] at hd
        rcases (exceptOk_iff _).mp hd with ⟨x, hx⟩
        rw [decs_cons_pos _ _ _ _ x (by simp [h2]) hx, decs_cons_neg _ _ _ _ htxt]
        simp only [contextSwitch, h2, hx, Except.map, PlainTextType, MarkdownType,
          String.reduceEq, or_self, false_or, or_false, reduceIte]
        rw [ih _ hobj' hdec']
        simp
        rfl
      · rw [decs_cons_neg _ _ _ _ (by simp [h2]), decs_cons_neg _ _ _ _ htxt]
        simp only [contextSwitch, if_neg h1, if_neg h2]
        exact ih e hobj' hdec'

theorem exceptOk_map {ε α β : Type} (f : α → β) (x : Except ε α) :
    exceptOk (x.map f) = exceptOk x := by
  cases x <;> rfl

/-- An element that is not an object (and not `null`) makes the loop body
error, whatever the switch. -/
theorem rawStep_not_obj {σ : Type}
    (step : String → Json → Except String (σ → σ)) (j : Json)
    (hj : j.isObjOrNull = false) : exceptOk (rawStep step j) = false := by
  cases j <;> first | rfl | simp [Json.isObjOrNull] at hj

/-- An object (or `null`) element whose recognized decode succeeds makes
the `Blocks` loop body succeed. -/
theorem blocks_rawStep_ok (C : BlockCodecs) (j : Json)
    (hj : j.isObjOrNull = true) (hd : blocksDecOk C j = true) :
    exceptOk (rawStep (blockSwitch C) j) = true := by
  rw [rawStep_objOrNull _ j hj]
  unfold blocksDecOk at hd
  unfold blockSwitch
  split_ifs at hd ⊢ <;> first | rfl | simp_all [exceptOk_map]

/-- An object element whose recognized decode fails makes the `Blocks` loop
body error. -/
theorem blocks_rawStep_fail (C : BlockCodecs) (j : Json)
    (hj : j.isObjOrNull = true) (hd : blocksDecOk C j = false) :
    exceptOk (rawStep (blockSwitch C) j) = false := by
  rw [rawStep_objOrNull _ j hj]
  unfold blocksDecOk at hd
  unfold blockSwitch
  split_ifs at hd ⊢ <;> first | rfl | simp_all [exceptOk_map]

/-- `BlockElements` version of `blocks_rawStep_ok`. -/
theorem elems_rawStep_ok (C : ElemCodecs) (j : Json)
    (hj : j.isObjOrNull = true) (hd : elemsDecOk C j = true) :
    exceptOk (rawStep (elemSwitch C) j) = true := by
  rw [rawStep_objOrNull _ j hj]
  unfold elemsDecOk at hd
  unfold elemSwitch
  split_ifs at hd ⊢ <;> first | rfl | simp_all [exceptOk_map]

/-- `BlockElements` version of `blocks_rawStep_fail`. -/
theorem elems_rawStep_fail (C : ElemCodecs) (j : Json)
    (hj : j.isObjOrNull = true) (hd : elemsDecOk C j = false) :
    exceptOk (rawStep (elemSwitch C) j) = false := by
  rw [rawStep_objOrNull _ j hj]
  unfold elemsDecOk at hd
  unfold elemSwitch
  split_ifs at hd ⊢ <;> first | rfl | simp_all [exceptOk_map]

/-- `ContextElements` version of `blocks_rawStep_ok`. -/
theorem context_rawStep_ok (C : ContextCodecs) (j : Json)
    (hj : j.isObjOrNull = true) (hd : contextDecOk C j = true) :
    exceptOk (rawStep (contextSwitch C) j) = true := by
  rw [rawStep_objOrNull _ j hj]
  unfold contextDecOk at hd
  unfold contextSwitch
  split_ifs at hd ⊢ <;> first | rfl | simp_all [exceptOk_map]

/-- `ContextElements` version of `blocks_rawStep_fail`. -/
theorem context_rawStep_fail (C : ContextCodecs) (j : Json)
    (hj : j.isObjOrNull = true) (hd : contextDecOk C j = false) :
    exceptOk (rawStep (contextSwitch C) j) = false := by
  rw [rawStep_objOrNull _ j hj]
  unfold contextDecOk at hd
  unfold contextSwitch
  split_ifs at hd ⊢ <;> first | rfl | simp_all [exceptOk_map]

/-- Re-encoding the values one kind's accumulator collected reproduces the
original raw elements of that kind, in order, whenever the kind's codec
round-trips them. -/
theorem map_enc_decs {α : Type} (rec : String → Bool)
    (d : Json → Except String α) (enc : α → Json) (js : List Json)
    (hdec : ∀ j ∈ js, rec (rawType j) = true → exceptOk (d j) = true)
    (hround : ∀ j ∈ js, rec (rawType j) = true → ∀ x, d j = .ok x → enc x = j) :
    (decs rec d js).map enc = js.filter (fun j => rec (rawType j)) := by
  induction js with
  | nil => rfl
  | cons j rest ih =>
    have ih' := ih (fun j' h' => hdec j' (by simp [h']))
      (fun j' h' => hround j' (by simp [h']))
    by_cases hr : rec (rawType j) = true
    · rcases (exceptOk_iff _).mp (hdec j (by simp) hr) with ⟨x, hx⟩
      rw [decs_cons_pos _ _ _ _ x hr hx]
      simp only [List.map_cons, List.filter_cons, hr, if_true, ih',
        hround j (by simp) hr x hx]
    · have hr' : rec (rawType j) = false := by simpa using hr
      rw [decs_cons_neg _ _ _ _ hr']
      simp only [List.filter_cons, hr', ih', Bool.false_eq_true, if_false]

/- A collaborator codec family for concrete inputs: each variant decodes by
storing the payload it was given and encodes by returning it.  Used to
instantiate the parametric theorems at concrete inputs. -/

/-- Concrete `Blocks` codecs: store/return the payload. -/
def okBlockCodecs : BlockCodecs :=
  ⟨⟨fun j => .ok ⟨j⟩, ActionBlock.raw⟩, ⟨fun j => .ok ⟨j⟩, ContextBlock.raw⟩,
    ⟨fun j => .ok ⟨j⟩, DividerBlock.raw⟩, ⟨fun j => .ok ⟨j⟩, ImageBlock.raw⟩,
    ⟨fun j => .ok ⟨j⟩, SectionBlock.raw⟩⟩

/-- Concrete `BlockElements` codecs: store/return the payload. -/
def okElemCodecs : ElemCodecs :=
  ⟨⟨fun j => .ok ⟨j⟩, ImageBlockElement.raw⟩, ⟨fun j => .ok ⟨j⟩, ButtonBlockElement.raw⟩,
    ⟨fun j => .ok ⟨j⟩, OverflowBlockElement.raw⟩, ⟨fun j => .ok ⟨j⟩, DatePickerBlockElement.raw⟩,
    ⟨fun j => .ok ⟨j⟩, SelectBlockElement.raw⟩⟩

/-- Concrete `ContextElements` codecs: store/return the payload. -/
def okContextCodecs : ContextCodecs :=
  ⟨⟨fun j => .ok ⟨j⟩, ImageBlockElement.raw⟩, ⟨fun j => .ok ⟨j⟩, TextBlockObject.raw⟩⟩

/-- Modelled from the spec: a concrete button decoder exhibiting the
variant-decode error of the spec's error taxonomy ("a recognized
discriminator's payload does not match its concrete shape") — it rejects a
payload whose `text` field is not an object, as a decoder whose `text`
field is itself a structure does. -/
def buttonStrictDec (j : Json) : Except String ButtonBlockElement :=
  match j with
  | .obj fields =>
    match lookupField fields "text" with
    | some (.obj _) => .ok ⟨j⟩
    | some _ => .error "json: cannot unmarshal value into Go struct field text"
    | none => .ok ⟨j⟩
  | _ => .error "json: cannot unmarshal value into Go value of type ButtonBlockElement"

/-- `okElemCodecs` with the shape-checking button decoder. -/
def strictElemCodecs : ElemCodecs :=
  { okElemCodecs with button := ⟨buttonStrictDec, ButtonBlockElement.raw⟩ }

/-- Whether a JSON value is an array. -/
def Json.isArr : Json → Bool
  | .arr _ => true
  | _ => false

/-- Whether a generic object's `type` field is present and a JSON string
(i.e. whether the `obj["type"].(string)` assertion succeeds). -/
def typeIsString (fields : List (String × Json)) : Bool :=
  match lookupField fields "type" with
  | some (.str _) => true
  | _ => false

theorem getType_of_not_string (fields : List (String × Json))
    (h : typeIsString fields = false) : getType (some fields) = "" := by
  unfold typeIsString at h
  rcases hl : lookupField fields "type" with - | v
  · simp [getType, hl]
  · cases v <;> simp [getType, hl] <;> rw [hl] at h <;> simp at h

/-- The discriminators the `Blocks` registry recognizes. -/
def blockTypeRecognized (t : String) : Bool :=
  t == "actions" || t == "context" || t == "divider" || t == "image" || t == "section"

/-- The discriminators the `BlockElements` (and `Accessory`) registry
recognizes. -/
def elemTypeRecognized (t : String) : Bool :=
  t == "image" || t == "button" || t == "overflow" || t == "datepicker" ||
    t == "static_select"

/-- The discriminators the `ContextElements` registry recognizes. -/
def contextTypeRecognized (t : String) : Bool :=
  t == PlainTextType || t == MarkdownType || t == "image"

/-- The number of decoded blocks a `Blocks` container holds. -/
def Blocks.total (b : Blocks) : Nat :=
  b.ActionBlocks.length + b.ContextBlocks.length + b.DividerBlocks.length +
    b.ImageBlocks.length + b.SectionBlocks.length

/-- The number of decoded elements a `BlockElements` container holds. -/
def BlockElements.total (e : BlockElements) : Nat :=
  e.ImageElements.length + e.ButtonElements.length + e.OverflowElements.length +
    e.DatePickerElements.length + e.SelectElements.length

/-- The number of decoded elements a `ContextElements` container holds. -/
def ContextElements.total (e : ContextElements) : Nat :=
  e.ImageElements.length + e.TextObjects.length

/-- A nonempty accumulated slice marshals as a JSON array. -/
theorem marshalSlice_ne_nil (xs : List Json) (h : xs ≠ []) :
    marshalSlice xs = .arr xs := by
  cases xs with
  | nil => exact absurd rfl h
  | cons x rest => rfl

/-- Force a JSON value into an object: used to build collaborator encoders
that honour the wire-format contract (every variant encodes as a JSON
object). -/
def asObj (j : Json) : Json :=
  match j with
  | .obj fields => .obj fields
  | _ => .obj []

theorem asObj_isObj (j : Json) : (asObj j).isObj = true := by
  cases j <;> rfl

/-- Collaborator codecs for `Accessory` whose encoders always emit a JSON
object, as the wire-format contract requires. -/
def objElemCodecs : ElemCodecs :=
  ⟨⟨fun j => .ok ⟨j⟩, fun x => asObj x.raw⟩, ⟨fun j => .ok ⟨j⟩, fun x => asObj x.raw⟩,
    ⟨fun j => .ok ⟨j⟩, fun x => asObj x.raw⟩, ⟨fun j => .ok ⟨j⟩, fun x => asObj x.raw⟩,
    ⟨fun j => .ok ⟨j⟩, fun x => asObj x.raw⟩⟩

theorem elemsDecOk_image (C : ElemCodecs) (j : Json) (h : elemsDecOk C j = true)
    (ht : rawType j = "image") : exceptOk (C.image.dec j) = true := by
  unfold elemsDecOk at h
  rwa [if_pos ht] at h

theorem elemsDecOk_button (C : ElemCodecs) (j : Json) (h : elemsDecOk C j = true)
    (ht : rawType j = "button") : exceptOk (C.button.dec j) = true := by
  unfold elemsDecOk at h
  rwa [if_neg (by simp [ht]), if_pos ht] at h

theorem elemsDecOk_overflow (C : ElemCodecs) (j : Json) (h : elemsDecOk C j = true)
    (ht : rawType j = "overflow") : exceptOk (C.overflow.dec j) = true := by
  unfold elemsDecOk at h
  rwa [if_neg (by simp [ht]), if_neg (by simp [ht]), if_pos ht] at h

theorem elemsDecOk_datepicker (C : ElemCodecs) (j : Json) (h : elemsDecOk C j = true)
    (ht : rawType j = "datepicker") : exceptOk (C.datepicker.dec j) = true := by
  unfold elemsDecOk at h
  rwa [if_neg (by simp [ht]), if_neg (by simp [ht]), if_neg (by simp [ht]),
    if_pos ht] at h

theorem elemsDecOk_select (C : ElemCodecs) (j : Json) (h : elemsDecOk C j = true)
    (ht : rawType j = "static_select") : exceptOk (C.selectC.dec j) = true := by
  unfold elemsDecOk at h
  rwa [if_neg (by simp [ht]), if_neg (by simp [ht]), if_neg (by simp [ht]),
    if_neg (by simp [ht]), if_pos ht] at h

theorem contextDecOk_text (C : ContextCodecs) (j : Json) (h : contextDecOk C j = true)
    (ht : rawType j = PlainTextType ∨ rawType j = MarkdownType) :
    exceptOk (C.text.dec j) = true := by
  unfold contextDecOk at h
  rwa [if_pos ht] at h

theorem contextDecOk_image (C : ContextCodecs) (j : Json) (h : contextDecOk C j = true)
    (ht : rawType j = "image") : exceptOk (C.image.dec j) = true := by
  unfold contextDecOk at h
  rwa [if_neg (by simp [ht, PlainTextType, MarkdownType]), if_pos ht] at h

/-- The number of elements the accumulators of one kind collect, when that
kind's recognized elements decode. -/
theorem decs_length {α : Type} (rec : String → Bool) (d : Json → Except String α)
    (js : List Json)
    (hdec : ∀ j ∈ js, rec (rawType j) = true → exceptOk (d j) = true) :
    (decs rec d js).length = (js.filter (fun j => rec (rawType j))).length := by
  induction js with
  | nil => rfl
  | cons j rest ih =>
    have ih' := ih (fun j' h' => hdec j' (by simp [h']))
    by_cases hr : rec (rawType j) = true
    · rcases (exceptOk_iff _).mp (hdec j (by simp) hr) with ⟨x, hx⟩
      rw [decs_cons_pos _ _ _ _ x hr hx]
      simp [List.filter_cons, hr, ih']
    · have hr' : rec (rawType j) = false := by simpa using hr
      rw [decs_cons_neg _ _ _ _ hr']
      simp [List.filter_cons, hr', ih']

/-- The five per-kind filters of the `Blocks` registry partition the
recognized elements: their counts sum to the recognized count. -/
theorem blocks_filter_count (js : List Json) :
    (js.filter (fun j => rawType j == "actions")).length +
      (js.filter (fun j => rawType j == "context")).length +
      (js.filter (fun j => rawType j == "divider")).length +
      (js.filter (fun j => rawType j == "image")).length +
      (js.filter (fun j => rawType j == "section")).length =
      (js.filter (fun j => blockTypeRecognized (rawType j))).length := by
  induction js with
  | nil => rfl
  | cons j rest ih =>
    by_cases h1 : rawType j = "actions"
    · rw [List.filter_cons_of_pos (by simp [h1]), List.filter_cons_of_neg (by simp [h1]),
        List.filter_cons_of_neg (by simp [h1]), List.filter_cons_of_neg (by simp [h1]),
        List.filter_cons_of_neg (by simp [h1]),
        List.filter_cons_of_pos (by simp [blockTypeRecognized, h1])]
      simp only [List.length_cons]
      omega
    · by_cases h2 : rawType j = "context"
      · rw [List.filter_cons_of_neg (by simp [h2]), List.filter_cons_of_pos (by simp [h2]),
          List.filter_cons_of_neg (by simp [h2]), List.filter_cons_of_neg (by simp [h2]),
          List.filter_cons_of_neg (by simp [h2]),
          List.filter_cons_of_pos (by simp [blockTypeRecognized, h2])]
        simp only [List.length_cons]
        omega
      · by_cases h3 : rawType j = "divider"
        · rw [List.filter_cons_of_neg (by simp [h3]), List.filter_cons_of_neg (by simp [h3]),
            List.filter_cons_of_pos (by simp [h3]), List.filter_cons_of_neg (by simp [h3]),
            List.filter_cons_of_neg (by simp [h3]),
            List.filter_cons_of_pos (by simp [blockTypeRecognized, h3])]
          simp only [List.length_cons]
          omega
        · by_cases h4 : rawType j = "image"
          · rw [List.filter_cons_of_neg (by simp [h4]), List.filter_cons_of_neg (by simp [h4]),
              List.filter_cons_of_neg (by simp [h4]), List.filter_cons_of_pos (by simp [h4]),
              List.filter_cons_of_neg (by simp [h4]),
              List.filter_cons_of_pos (by simp [blockTypeRecognized, h4])]
            simp only [List.length_cons]
            omega
          · by_cases h5 : rawType j = "section"
            · rw [List.filter_cons_of_neg (by simp [h5]), List.filter_cons_of_neg (by simp [h5]),
                List.filter_cons_of_neg (by simp [h5]), List.filter_cons_of_neg (by simp [h5]),
                List.filter_cons_of_pos (by simp [h5]),
                List.filter_cons_of_pos (by simp [blockTypeRecognized, h5])]
              simp only [List.length_cons]
              omega
            · rw [List.filter_cons_of_neg (by simp [h1]), List.filter_cons_of_neg (by simp [h2]),
                List.filter_cons_of_neg (by simp [h3]), List.filter_cons_of_neg (by simp [h4]),
                List.filter_cons_of_neg (by simp [h5]),
                List.filter_cons_of_neg (by simp [blockTypeRecognized, h1, h2, h3, h4, h5])]
              omega

/-- `BlockElements` version of `blocks_filter_count`. -/
theorem elems_filter_count (js : List Json) :
    (js.filter (fun j => rawType j == "image")).length +
      (js.filter (fun j => rawType j == "button")).length +
      (js.filter (fun j => rawType j == "overflow")).length +
      (js.filter (fun j => rawType j == "datepicker")).length +
      (js.filter (fun j => rawType j == "static_select")).length =
      (js.filter (fun j => elemTypeRecognized (rawType j))).length := by
  induction js with
  | nil => rfl
  | cons j rest ih =>
    by_cases h1 : rawType j = "image"
    · rw [List.filter_cons_of_pos (by simp [h1]), List.filter_cons_of_neg (by simp [h1]),
        List.filter_cons_of_neg (by simp [h1]), List.filter_cons_of_neg (by simp [h1]),
        List.filter_cons_of_neg (by simp [h1]),
        List.filter_cons_of_pos (by simp [elemTypeRecognized, h1])]
      simp only [List.length_cons]
      omega
    · by_cases h2 : rawType j = "button"
      · rw [List.filter_cons_of_neg (by simp [h2]), List.filter_cons_of_pos (by simp [h2]),
          List.filter_cons_of_neg (by simp [h2]), List.filter_cons_of_neg (by simp [h2]),
          List.filter_cons_of_neg (by simp [h2]),
          List.filter_cons_of_pos (by simp [elemTypeRecognized, h2])]
        simp only [List.length_cons]
        omega
      · by_cases h3 : rawType j = "overflow"
        · rw [List.filter_cons_of_neg (by simp [h3]), List.filter_cons_of_neg (by simp [h3]),
            List.filter_cons_of_pos (by simp [h3]), List.filter_cons_of_neg (by simp [h3]),
            List.filter_cons_of_neg (by simp [h3]),
            List.filter_cons_of_pos (by simp [elemTypeRecognized, h3])]
          simp only [List.length_cons]
          omega
        · by_cases h4 : rawType j = "datepicker"
          · rw [List.filter_cons_of_neg (by simp [h4]), List.filter_cons_of_neg (by simp [h4]),
              List.filter_cons_of_neg (by simp [h4]), List.filter_cons_of_pos (by simp [h4]),
              List.filter_cons_of_neg (by simp [h4]),
              List.filter_cons_of_pos (by simp [elemTypeRecognized, h4])]
            simp only [List.length_cons]
            omega
          · by_cases h5 : rawType j = "static_select"
            · rw [List.filter_cons_of_neg (by simp [h5]), List.filter_cons_of_neg (by simp [h5]),
                List.filter_cons_of_neg (by simp [h5]), List.filter_cons_of_neg (by simp [h5]),
                List.filter_cons_of_pos (by simp [h5]),
                List.filter_cons_of_pos (by simp [elemTypeRecognized, h5])]
              simp only [List.length_cons]
              omega
            · rw [List.filter_cons_of_neg (by simp [h1]), List.filter_cons_of_neg (by simp [h2]),
                List.filter_cons_of_neg (by simp [h3]), List.filter_cons_of_neg (by simp [h4]),
                List.filter_cons_of_neg (by simp [h5]),
                List.filter_cons_of_neg (by simp [elemTypeRecognized, h1, h2, h3, h4, h5])]
              omega

/-- `ContextElements` version of `blocks_filter_count`. -/
theorem context_filter_count (js : List Json) :
    (js.filter (fun j => rawType j == "image")).length +
      (js.filter (fun j => rawType j == PlainTextType || rawType j == MarkdownType)).length =
      (js.filter (fun j => contextTypeRecognized (rawType j))).length := by
  induction js with
  | nil => rfl
  | cons j rest ih =>
    by_cases h1 : rawType j = "image"
    · rw [List.filter_cons_of_pos (by simp [h1]),
        List.filter_cons_of_neg (by simp [h1, PlainTextType, MarkdownType]),
        List.filter_cons_of_pos (by simp [contextTypeRecognized, h1])]
      simp only [List.length_cons]
      omega
    · by_cases h2 : rawType j = PlainTextType
      · rw [List.filter_cons_of_neg (by simp [h2, PlainTextType]),
          List.filter_cons_of_pos (by simp [h2]),
          List.filter_cons_of_pos (by simp [contextTypeRecognized, h2])]
        simp only [List.length_cons]
        omega
      · by_cases h3 : rawType j = MarkdownType
        · rw [List.filter_cons_of_neg (by simp [h3, MarkdownType]),
            List.filter_cons_of_pos (by simp [h3]),
            List.filter_cons_of_pos (by simp [contextTypeRecognized, h3])]
          simp only [List.length_cons]
          omega
        · rw [List.filter_cons_of_neg (by simp [h1]),
            List.filter_cons_of_neg (by simp [h2, h3]),
            List.filter_cons_of_neg (by simp [contextTypeRecognized, h1, h2, h3])]
          omega

theorem isObjOrNull_of_isObj (j : Json) (h : j.isObj = true) :
    j.isObjOrNull = true := by
  cases j <;> first | rfl | simp [Json.isObj] at h

theorem blocksDecOk_action (C : BlockCodecs) (j : Json) (h : blocksDecOk C j = true)
    (ht : rawType j = "actions") : exceptOk (C.action.dec j) = true := by
  unfold blocksDecOk at h
  rwa [if_pos ht] at h

theorem blocksDecOk_context (C : BlockCodecs) (j : Json) (h : blocksDecOk C j = true)
    (ht : rawType j = "context") : exceptOk (C.context.dec j) = true := by
  unfold blocksDecOk at h
  rwa [if_neg (by simp [ht]), if_pos ht] at h

theorem blocksDecOk_divider (C : BlockCodecs) (j : Json) (h : blocksDecOk C j = true)
    (ht : rawType j = "divider") : exceptOk (C.divider.dec j) = true := by
  unfold blocksDecOk at h
  rwa [if_neg (by simp [ht]), if_neg (by simp [ht]), if_pos ht] at h

theorem blocksDecOk_image (C : BlockCodecs) (j : Json) (h : blocksDecOk C j = true)
    (ht : rawType j = "image") : exceptOk (C.image.dec j) = true := by
  unfold blocksDecOk at h
  rwa [if_neg (by simp [ht]), if_neg (by simp [ht]), if_neg (by simp [ht]),
    if_pos ht] at h

theorem blocksDecOk_section (C : BlockCodecs) (j : Json) (h : blocksDecOk C j = true)
    (ht : rawType j = "section") : exceptOk (C.sectionC.dec j) = true := by
  unfold blocksDecOk at h
  rwa [if_neg (by simp [ht]), if_neg (by simp [ht]), if_neg (by simp [ht]),
    if_neg (by simp [ht]), if_pos ht] at h

/- Kind projections out of the `Block` / `BlockElement` interfaces, used to
state what the append operations route where. -/

/-- The action-block content of a `Block`, when it is one. -/
def projAction : Block → Option ActionBlock
  | .action x => some x
  | _ => none

/-- The context-block content of a `Block`, when it is one. -/
def projContext : Block → Option ContextBlock
  | .context x => some x
  | _ => none

/-- The divider-block content of a `Block`, when it is one. -/
def projDivider : Block → Option DividerBlock
  | .divider x => some x
  | _ => none

/-- The image-block content of a `Block`, when it is one. -/
def projImage : Block → Option ImageBlock
  | .image x => some x
  | _ => none

/-- The section-block content of a `Block`, when it is one. -/
def projSection : Block → Option SectionBlock
  | .sectionB x => some x
  | _ => none

/-- The image-element content of a `BlockElement`, when it is one. -/
def projImageEl : BlockElement → Option ImageBlockElement
  | .image x => some x
  | _ => none

/-- The button-element content of a `BlockElement`, when it is one. -/
def projButtonEl : BlockElement → Option ButtonBlockElement
  | .button x => some x
  | _ => none

/-- The overflow-element content of a `BlockElement`, when it is one. -/
def projOverflowEl : BlockElement → Option OverflowBlockElement
  | .overflow x => some x
  | _ => none

/-- The date-picker-element content of a `BlockElement`, when it is one. -/
def projDatePickerEl : BlockElement → Option DatePickerBlockElement
  | .datepicker x => some x
  | _ => none

/-- The select-element content of a `BlockElement`, when it is one. -/
def projSelectEl : BlockElement → Option SelectBlockElement
  | .staticSelect x => some x
  | _ => none

theorem appendToBlocks_char (b : Blocks) (bs : List Block) :
    Blocks.appendToBlocks b bs =
      ⟨b.ActionBlocks ++ bs.filterMap projAction,
        b.ContextBlocks ++ bs.filterMap projContext,
        b.DividerBlocks ++ bs.filterMap projDivider,
        b.ImageBlocks ++ bs.filterMap projImage,
        b.SectionBlocks ++ bs.filterMap projSection⟩ := by
  induction bs generalizing b with
  | nil => simp [Blocks.appendToBlocks]
  | cons bl rest ih =>
    simp only [Blocks.appendToBlocks]
    rw [ih]
    cases bl <;>
      simp [appendOneBlock, projAction, projContext, projDivider, projImage, projSection]

theorem appendToBlockElements_char (e : BlockElements) (els : List BlockElement) :
    BlockElements.appendToBlockElements e els =
      ⟨e.ImageElements ++ els.filterMap projImageEl,
        e.ButtonElements ++ els.filterMap projButtonEl,
        e.OverflowElements ++ els.filterMap projOverflowEl,
        e.DatePickerElements ++ els.filterMap projDatePickerEl,
        e.SelectElements ++ els.filterMap projSelectEl⟩ := by
  induction els generalizing e with
  | nil => simp [BlockElements.appendToBlockElements]
  | cons el rest ih =>
    simp only [BlockElements.appendToBlockElements]
    rw [ih]
    cases el <;>
      simp [appendOneBlockElement, projImageEl, projButtonEl, projOverflowEl,
        projDatePickerEl, projSelectEl]

/-- C9: the append operations route each already-typed variant of the
recognized closed set to the end of its matching per-kind accumulator,
keeping the accumulator's prior contents and the variants' relative order
within each kind, and silently ignore variants outside the closed set
(the `unknown` case contributes to no accumulator). -/
theorem C9_append_routes_by_kind (b : Blocks) (bs : List Block)
    (e : BlockElements) (els : List BlockElement) :
    Blocks.appendToBlocks b bs =
      ⟨b.ActionBlocks ++ bs.filterMap projAction,
        b.ContextBlocks ++ bs.filterMap projContext,
        b.DividerBlocks ++ bs.filterMap projDivider,
        b.ImageBlocks ++ bs.filterMap projImage,
        b.SectionBlocks ++ bs.filterMap projSection⟩ ∧
    BlockElements.appendToBlockElements e els =
      ⟨e.ImageElements ++ els.filterMap projImageEl,
        e.ButtonElements ++ els.filterMap projButtonEl,
        e.OverflowElements ++ els.filterMap projOverflowEl,
        e.DatePickerElements ++ els.filterMap projDatePickerEl,
        e.SelectElements ++ els.filterMap projSelectEl⟩ :=
  ⟨appendToBlocks_char b bs, appendToBlockElements_char e els⟩

/-- C10: an array element that is a well-formed JSON object whose `type`
field is absent or not a JSON string is treated exactly like an
unrecognized discriminator by every decode operation: the three container
decodes behave as if the element were not there (no error, no accumulator
change), and the `Accessory` decode populates no slot and returns no
error. -/
theorem C10_typeless_object_skipped (CB : BlockCodecs) (CE : ElemCodecs)
    (CC : ContextCodecs) (fs : List (String × Json)) (pre post : List Json)
    (b : Blocks) (e : BlockElements) (c : ContextElements) (a : Accessory)
    (h : typeIsString fs = false) :
    Blocks.UnmarshalJSON CB b (.arr (pre ++ .obj fs :: post)) =
      Blocks.UnmarshalJSON CB b (.arr (pre ++ post)) ∧
    BlockElements.UnmarshalJSON CE e (.arr (pre ++ .obj fs :: post)) =
      BlockElements.UnmarshalJSON CE e (.arr (pre ++ post)) ∧
    ContextElements.UnmarshalJSON CC c (.arr (pre ++ .obj fs :: post)) =
      ContextElements.UnmarshalJSON CC c (.arr (pre ++ post)) ∧
    Accessory.UnmarshalJSON CE a (.obj fs) = (a, none) := by
  have hty : getType (some fs) = "" := getType_of_not_string fs h
  refine ⟨?_, ?_, ?_, ?_⟩
  · exact processRaw_skip _ _
      (by simp [rawStep, unmarshalObjMap, hty, blockSwitch]) pre post b
  · exact processRaw_skip _ _
      (by simp [rawStep, unmarshalObjMap, hty, elemSwitch]) pre post e
  · exact processRaw_skip _ _
      (by simp [rawStep, unmarshalObjMap, hty, contextSwitch, PlainTextType,
        MarkdownType]) pre post c
  · simp [Accessory.UnmarshalJSON, unmarshalObjMap, hty]

/-- C10 witness: a concrete object whose `type` field is a number is
skipped by the `Blocks` decode and leaves an `Accessory` untouched. -/
theorem C10_witness :
    typeIsString [("type", Json.num 1)] = false ∧
    Blocks.UnmarshalJSON okBlockCodecs Blocks.empty
        (.arr ([] ++ Json.obj [("type", Json.num 1)] :: [])) =
      Blocks.UnmarshalJSON okBlockCodecs Blocks.empty (.arr ([] ++ [])) ∧
    Accessory.UnmarshalJSON okElemCodecs Accessory.empty
        (.obj [("type", Json.num 1)]) = (Accessory.empty, none) :=
  ⟨rfl,
    (C10_typeless_object_skipped okBlockCodecs okElemCodecs okContextCodecs
      [("type", Json.num 1)] [] [] Blocks.empty BlockElements.empty
      ContextElements.empty Accessory.empty rfl).1,
    (C10_typeless_object_skipped okBlockCodecs okElemCodecs okContextCodecs
      [("type", Json.num 1)] [] [] Blocks.empty BlockElements.empty
      ContextElements.empty Accessory.empty rfl).2.2.2⟩

/-- C7: decoding a well-formed object with `type` `"button"` into a
zero-valued `Accessory` populates exactly the button slot with the decoded
button element, leaves every other slot unpopulated, and returns no
error. -/
theorem C7_accessory_button_decode (C : ElemCodecs)
    (fs : List (String × Json)) (el : ButtonBlockElement)
    (hty : lookupField fs "type" = some (.str "button"))
    (hdec : C.button.dec (.obj fs) = .ok el) :
    Accessory.UnmarshalJSON C Accessory.empty (.obj fs) =
      (⟨none, some el, none, none, none⟩, none) := by
  have hty' : getType (some fs) = "button" := by simp [getType, hty]
  simp [Accessory.UnmarshalJSON, unmarshalObjMap, hty', hdec, Accessory.empty]

/-- C7 witness: decoding a concrete button object. -/
theorem C7_witness :
    Accessory.UnmarshalJSON okElemCodecs Accessory.empty
        (.obj [("type", Json.str "button")]) =
      (⟨none, some ⟨.obj [("type", Json.str "button")]⟩, none, none, none⟩, none) :=
  C7_accessory_button_decode okElemCodecs [("type", Json.str "button")]
    ⟨.obj [("type", Json.str "button")]⟩ rfl rfl

/-- C4: `Accessory` encodes its single populated slot directly (bare, with
no array wrapper — the result is the slot's own object encoding), selects
the slot in the fixed priority order image, button, overflow, date-picker,
select when several are populated, and encodes to JSON `null` when none
is.  The hypotheses are the wire-format contract that each collaborator
encoder emits a JSON object. -/
theorem C4_accessory_marshal_priority (C : ElemCodecs) (a : Accessory)
    (h1 : ∀ x, (C.image.enc x).isObj = true)
    (h2 : ∀ x, (C.button.enc x).isObj = true)
    (h3 : ∀ x, (C.overflow.enc x).isObj = true)
    (h4 : ∀ x, (C.datepicker.enc x).isObj = true)
    (h5 : ∀ x, (C.selectC.enc x).isObj = true) :
    (a.ImageElement = none → a.ButtonElement = none → a.OverflowElement = none →
      a.DatePickerElement = none → a.SelectElement = none →
      Accessory.MarshalJSON C a = .null) ∧
    (∀ x, a.ImageElement = some x →
      Accessory.MarshalJSON C a = C.image.enc x ∧
        (Accessory.MarshalJSON C a).isObj = true) ∧
    (∀ x, a.ImageElement = none → a.ButtonElement = some x →
      Accessory.MarshalJSON C a = C.button.enc x ∧
        (Accessory.MarshalJSON C a).isObj = true) ∧
    (∀ x, a.ImageElement = none → a.ButtonElement = none →
      a.OverflowElement = some x →
      Accessory.MarshalJSON C a = C.overflow.enc x ∧
        (Accessory.MarshalJSON C a).isObj = true) ∧
    (∀ x, a.ImageElement = none → a.ButtonElement = none →
      a.OverflowElement = none → a.DatePickerElement = some x →
      Accessory.MarshalJSON C a = C.datepicker.enc x ∧
        (Accessory.MarshalJSON C a).isObj = true) ∧
    (∀ x, a.ImageElement = none → a.ButtonElement = none →
      a.OverflowElement = none → a.DatePickerElement = none →
      a.SelectElement = some x →
      Accessory.MarshalJSON C a = C.selectC.enc x ∧
        (Accessory.MarshalJSON C a).isObj = true) := by
  refine ⟨?_, ?_, ?_, ?_, ?_, ?_⟩
  · intro e1 e2 e3 e4 e5
    simp [Accessory.MarshalJSON, toBlockElement, e1, e2, e3, e4, e5]
  · intro x hx
    have hm : Accessory.MarshalJSON C a = C.image.enc x := by
      simp [Accessory.MarshalJSON, toBlockElement, hx, encodeBlockElement]
    exact ⟨hm, by rw [hm]; exact h1 x⟩
  · intro x e1 hx
    have hm : Accessory.MarshalJSON C a = C.button.enc x := by
      simp [Accessory.MarshalJSON, toBlockElement, e1, hx, encodeBlockElement]
    exact ⟨hm, by rw [hm]; exact h2 x⟩
  · intro x e1 e2 hx
    have hm : Accessory.MarshalJSON C a = C.overflow.enc x := by
      simp [Accessory.MarshalJSON, toBlockElement, e1, e2, hx, encodeBlockElement]
    exact ⟨hm, by rw [hm]; exact h3 x⟩
  · intro x e1 e2 e3 hx
    have hm : Accessory.MarshalJSON C a = C.datepicker.enc x := by
      simp [Accessory.MarshalJSON, toBlockElement, e1, e2, e3, hx, encodeBlockElement]
    exact ⟨hm, by rw [hm]; exact h4 x⟩
  · intro x e1 e2 e3 e4 hx
    have hm : Accessory.MarshalJSON C a = C.selectC.enc x := by
      simp [Accessory.MarshalJSON, toBlockElement, e1, e2, e3, e4, hx,
        encodeBlockElement]
    exact ⟨hm, by rw [hm]; exact h5 x⟩

/-- C4 witness: the empty accessory encodes to JSON null, and an accessory
with both the image and the button slot populated encodes the image slot. -/
theorem C4_witness :
    Accessory.MarshalJSON objElemCodecs Accessory.empty = .null ∧
    Accessory.MarshalJSON objElemCodecs
        ⟨some ⟨.obj [("k", .num 1)]⟩, some ⟨.obj [("k", .num 2)]⟩, none, none, none⟩ =
      objElemCodecs.image.enc ⟨.obj [("k", .num 1)]⟩ :=
  ⟨(C4_accessory_marshal_priority objElemCodecs Accessory.empty
      (fun x => asObj_isObj x.raw) (fun x => asObj_isObj x.raw)
      (fun x => asObj_isObj x.raw) (fun x => asObj_isObj x.raw)
      (fun x => asObj_isObj x.raw)).1 rfl rfl rfl rfl rfl,
    ((C4_accessory_marshal_priority objElemCodecs
      ⟨some ⟨.obj [("k", .num 1)]⟩, some ⟨.obj [("k", .num 2)]⟩, none, none, none⟩
      (fun x => asObj_isObj x.raw) (fun x => asObj_isObj x.raw)
      (fun x => asObj_isObj x.raw) (fun x => asObj_isObj x.raw)
      (fun x => asObj_isObj x.raw)).2.1 ⟨.obj [("k", .num 1)]⟩ rfl).1⟩

/-- C8 counterexample: JSON `null` is not an array, yet the `Blocks` decode
accepts it without error (Go unmarshals `null` into a slice as the nil
slice), contradicting the claim that every non-array input errors. -/
theorem C8_counterexample_null_accepted :
    Json.null.isArr = false ∧
    (Blocks.UnmarshalJSON okBlockCodecs Blocks.empty Json.null).2 = none ∧
    (BlockElements.UnmarshalJSON okElemCodecs BlockElements.empty Json.null).2 = none ∧
    (ContextElements.UnmarshalJSON okContextCodecs ContextElements.empty Json.null).2 = none :=
  ⟨rfl, rfl, rfl, rfl⟩

/-- C8 (amended): for every input whose outer JSON value is neither an
array nor JSON `null`, the three array-container decodes return an error
immediately and decode no elements (the receiver is unchanged).  (JSON
`null` is the one non-array value Go's slice unmarshalling accepts; it
also decodes no elements but returns no error.) -/
theorem C8_amended_non_array_errors (CB : BlockCodecs) (CE : ElemCodecs)
    (CC : ContextCodecs) (b : Blocks) (e : BlockElements) (c : ContextElements)
    (data : Json) (hnotarr : data.isArr = false) (hnotnull : data ≠ .null) :
    (Blocks.UnmarshalJSON CB b data).1 = b ∧
      (Blocks.UnmarshalJSON CB b data).2.isSome = true ∧
      (BlockElements.UnmarshalJSON CE e data).1 = e ∧
      (BlockElements.UnmarshalJSON CE e data).2.isSome = true ∧
      (ContextElements.UnmarshalJSON CC c data).1 = c ∧
      (ContextElements.UnmarshalJSON CC c data).2.isSome = true := by
  cases data <;>
    first
      | exact ⟨rfl, rfl, rfl, rfl, rfl, rfl⟩
      | exact absurd rfl hnotnull
      | simp [Json.isArr] at hnotarr

/-- C8 witness: a JSON number is rejected by all three container decodes,
leaving the receivers unchanged. -/
theorem C8_witness :
    (Blocks.UnmarshalJSON okBlockCodecs Blocks.empty (Json.num 5)).1 = Blocks.empty ∧
      (Blocks.UnmarshalJSON okBlockCodecs Blocks.empty (Json.num 5)).2.isSome = true ∧
      (BlockElements.UnmarshalJSON okElemCodecs BlockElements.empty (Json.num 5)).1 =
        BlockElements.empty ∧
      (BlockElements.UnmarshalJSON okElemCodecs BlockElements.empty (Json.num 5)).2.isSome = true ∧
      (ContextElements.UnmarshalJSON okContextCodecs ContextElements.empty (Json.num 5)).1 =
        ContextElements.empty ∧
      (ContextElements.UnmarshalJSON okContextCodecs ContextElements.empty
          (Json.num 5)).2.isSome = true :=
  C8_amended_non_array_errors okBlockCodecs okElemCodecs okContextCodecs
    Blocks.empty BlockElements.empty ContextElements.empty (Json.num 5) rfl
    (fun h => nomatch h)

/-- C1 counterexample: on `[{"type":"divider"}, 5]` the `Blocks` decode
returns an error, but the receiver is NOT left without partial results:
the valid divider element preceding the malformed one stays appended to
the divider accumulator. -/
theorem C1_counterexample_prefix_retained :
    (Blocks.UnmarshalJSON okBlockCodecs Blocks.empty
        (.arr [.obj [("type", Json.str "divider")], .num 5])).2.isSome = true ∧
    (Blocks.UnmarshalJSON okBlockCodecs Blocks.empty
        (.arr [.obj [("type", Json.str "divider")], .num 5])).1.DividerBlocks =
      [⟨.obj [("type", Json.str "divider")]⟩] :=
  ⟨rfl, rfl⟩

/-- C1 (amended): when an array element is malformed — neither a JSON
object nor JSON `null` — or is a recognized variant whose concrete decode
fails, each container decode returns an error; the accumulators receive
none of the elements at or after the failing one, but the receiver keeps
the elements already decoded from the prefix before it (elements that are
JSON `null` are silently skipped, like unrecognized discriminators). -/
theorem C1_amended_abort_keeps_preceding
    (CB : BlockCodecs) (bB : Blocks) (preB postB : List Json) (badB : Json)
    (CE : ElemCodecs) (bE : BlockElements) (preE postE : List Json) (badE : Json)
    (CC : ContextCodecs) (bC : ContextElements) (preC postC : List Json) (badC : Json)
    (hpreB : ∀ j ∈ preB, j.isObjOrNull = true ∧ blocksDecOk CB j = true)
    (hbadB : badB.isObjOrNull = false ∨
      (badB.isObjOrNull = true ∧ blocksDecOk CB badB = false))
    (hpreE : ∀ j ∈ preE, j.isObjOrNull = true ∧ elemsDecOk CE j = true)
    (hbadE : badE.isObjOrNull = false ∨
      (badE.isObjOrNull = true ∧ elemsDecOk CE badE = false))
    (hpreC : ∀ j ∈ preC, j.isObjOrNull = true ∧ contextDecOk CC j = true)
    (hbadC : badC.isObjOrNull = false ∨
      (badC.isObjOrNull = true ∧ contextDecOk CC badC = false)) :
    ((Blocks.UnmarshalJSON CB bB (.arr (preB ++ badB :: postB))).1 =
      ⟨bB.ActionBlocks ++ decs (fun t => t == "actions") CB.action.dec preB,
        bB.ContextBlocks ++ decs (fun t => t == "context") CB.context.dec preB,
        bB.DividerBlocks ++ decs (fun t => t == "divider") CB.divider.dec preB,
        bB.ImageBlocks ++ decs (fun t => t == "image") CB.image.dec preB,
        bB.SectionBlocks ++ decs (fun t => t == "section") CB.sectionC.dec preB⟩ ∧
      (Blocks.UnmarshalJSON CB bB (.arr (preB ++ badB :: postB))).2.isSome = true) ∧
    ((BlockElements.UnmarshalJSON CE bE (.arr (preE ++ badE :: postE))).1 =
      ⟨bE.ImageElements ++ decs (fun t => t == "image") CE.image.dec preE,
        bE.ButtonElements ++ decs (fun t => t == "button") CE.button.dec preE,
        bE.OverflowElements ++ decs (fun t => t == "overflow") CE.overflow.dec preE,
        bE.DatePickerElements ++ decs (fun t => t == "datepicker") CE.datepicker.dec preE,
        bE.SelectElements ++ decs (fun t => t == "static_select") CE.selectC.dec preE⟩ ∧
      (BlockElements.UnmarshalJSON CE bE (.arr (preE ++ badE :: postE))).2.isSome = true) ∧
    ((ContextElements.UnmarshalJSON CC bC (.arr (preC ++ badC :: postC))).1 =
      ⟨bC.ImageElements ++ decs (fun t => t == "image") CC.image.dec preC,
        bC.TextObjects ++
          decs (fun t => t == PlainTextType || t == MarkdownType) CC.text.dec preC⟩ ∧
      (ContextElements.UnmarshalJSON CC bC (.arr (preC ++ badC :: postC))).2.isSome = true) := by
  refine ⟨?_, ?_, ?_⟩
  · have hok : ∀ r ∈ preB, exceptOk (rawStep (blockSwitch CB) r) = true :=
      fun r hr => blocks_rawStep_ok CB r (hpreB r hr).1 (hpreB r hr).2
    have hbad' : exceptOk (rawStep (blockSwitch CB) badB) = false := by
      rcases hbadB with h | ⟨ha, hb⟩
      · exact rawStep_not_obj _ _ h
      · exact blocks_rawStep_fail CB badB ha hb
    have hfail := processRaw_fail (blockSwitch CB) preB postB badB bB hok hbad'
    have hclean := processRaw_eq_okRun (blockSwitch CB) preB bB hok
    have hchar := blocks_char CB preB bB (fun j hj => (hpreB j hj).1)
      (fun j hj => (hpreB j hj).2)
    have hrec := congrArg Prod.fst (hclean.symm.trans hchar)
    exact ⟨hfail.1.trans hrec, hfail.2⟩
  · have hok : ∀ r ∈ preE, exceptOk (rawStep (elemSwitch CE) r) = true :=
      fun r hr => elems_rawStep_ok CE r (hpreE r hr).1 (hpreE r hr).2
    have hbad' : exceptOk (rawStep (elemSwitch CE) badE) = false := by
      rcases hbadE with h | ⟨ha, hb⟩
      · exact rawStep_not_obj _ _ h
      · exact elems_rawStep_fail CE badE ha hb
    have hfail := processRaw_fail (elemSwitch CE) preE postE badE bE hok hbad'
    have hclean := processRaw_eq_okRun (elemSwitch CE) preE bE hok
    have hchar := elems_char CE preE bE (fun j hj => (hpreE j hj).1)
      (fun j hj => (hpreE j hj).2)
    have hrec := congrArg Prod.fst (hclean.symm.trans hchar)
    exact ⟨hfail.1.trans hrec, hfail.2⟩
  · have hok : ∀ r ∈ preC, exceptOk (rawStep (contextSwitch CC) r) = true :=
      fun r hr => context_rawStep_ok CC r (hpreC r hr).1 (hpreC r hr).2
    have hbad' : exceptOk (rawStep (contextSwitch CC) badC) = false := by
      rcases hbadC with h | ⟨ha, hb⟩
      · exact rawStep_not_obj _ _ h
      · exact context_rawStep_fail CC badC ha hb
    have hfail := processRaw_fail (contextSwitch CC) preC postC badC bC hok hbad'
    have hclean := processRaw_eq_okRun (contextSwitch CC) preC bC hok
    have hchar := context_char CC preC bC (fun j hj => (hpreC j hj).1)
      (fun j hj => (hpreC j hj).2)
    have hrec := congrArg Prod.fst (hclean.symm.trans hchar)
    exact ⟨hfail.1.trans hrec, hfail.2⟩

/-- C1 witness: concrete aborted decodes for all three containers. -/
theorem C1_witness :
    (Blocks.UnmarshalJSON okBlockCodecs Blocks.empty
        (.arr ([.obj [("type", Json.str "divider")]] ++ Json.num 5 :: []))).2.isSome = true ∧
    (BlockElements.UnmarshalJSON okElemCodecs BlockElements.empty
        (.arr ([.obj [("type", Json.str "button")]] ++ Json.bool true :: []))).1 =
      ⟨[], [⟨.obj [("type", Json.str "button")]⟩], [], [], []⟩ :=
  ⟨((C1_amended_abort_keeps_preceding okBlockCodecs Blocks.empty
      [.obj [("type", Json.str "divider")]] [] (Json.num 5)
      okElemCodecs BlockElements.empty
      [.obj [("type", Json.str "button")]] [] (Json.bool true)
      okContextCodecs ContextElements.empty
      [.obj [("type", Json.str "mrkdwn")]] [] (Json.str "x")
      (by decide) (.inl rfl) (by decide) (.inl rfl) (by decide) (.inl rfl)).1).2,
    ((C1_amended_abort_keeps_preceding okBlockCodecs Blocks.empty
      [.obj [("type", Json.str "divider")]] [] (Json.num 5)
      okElemCodecs BlockElements.empty
      [.obj [("type", Json.str "button")]] [] (Json.bool true)
      okContextCodecs ContextElements.empty
      [.obj [("type", Json.str "mrkdwn")]] [] (Json.str "x")
      (by decide) (.inl rfl) (by decide) (.inl rfl) (by decide) (.inl rfl)).2.1).1⟩

/-- C2 counterexample: an array of well-formed objects, one with an
unrecognized `type`, on which decoding nevertheless fails — the other,
recognized element is a button whose payload fails its concrete decode
(the spec's variant-decode error), so the claim's conclusion "decoding
succeeds" does not follow from its premises. -/
theorem C2_counterexample_variant_decode_error :
    ((Json.obj [("type", Json.str "unknown_kind")]).isObj = true ∧
      (Json.obj [("type", Json.str "button"), ("text", Json.num 5)]).isObj = true) ∧
    elemTypeRecognized (rawType (Json.obj [("type", Json.str "unknown_kind")])) = false ∧
    (BlockElements.UnmarshalJSON strictElemCodecs BlockElements.empty
        (.arr [Json.obj [("type", Json.str "unknown_kind")],
          Json.obj [("type", Json.str "button"), ("text", Json.num 5)]])).2.isSome = true :=
  ⟨⟨rfl, rfl⟩, rfl, rfl⟩

/-- C2 (amended): for every JSON array of well-formed objects in which some
element's `type` matches no recognized variant, and in which every
recognized element's payload decodes successfully, decoding succeeds
(returns no error), the unrecognized elements are appended to no
accumulator (each accumulator holds exactly the decoded elements of its
own kind), and the decoded count equals the recognized count — for each of
the three array containers. -/
theorem C2_amended_unrecognized_skipped (CB : BlockCodecs) (CE : ElemCodecs)
    (CC : ContextCodecs) (js : List Json)
    (hobj : ∀ j ∈ js, j.isObj = true) :
    ((∀ j ∈ js, blocksDecOk CB j = true) →
      (∃ j ∈ js, blockTypeRecognized (rawType j) = false) →
      (Blocks.UnmarshalJSON CB Blocks.empty (.arr js)).2 = none ∧
        (Blocks.UnmarshalJSON CB Blocks.empty (.arr js)).1 =
          ⟨decs (fun t => t == "actions") CB.action.dec js,
            decs (fun t => t == "context") CB.context.dec js,
            decs (fun t => t == "divider") CB.divider.dec js,
            decs (fun t => t == "image") CB.image.dec js,
            decs (fun t => t == "section") CB.sectionC.dec js⟩ ∧
        Blocks.total (Blocks.UnmarshalJSON CB Blocks.empty (.arr js)).1 =
          (js.filter (fun j => blockTypeRecognized (rawType j))).length) ∧
    ((∀ j ∈ js, elemsDecOk CE j = true) →
      (∃ j ∈ js, elemTypeRecognized (rawType j) = false) →
      (BlockElements.UnmarshalJSON CE BlockElements.empty (.arr js)).2 = none ∧
        (BlockElements.UnmarshalJSON CE BlockElements.empty (.arr js)).1 =
          ⟨decs (fun t => t == "image") CE.image.dec js,
            decs (fun t => t == "button") CE.button.dec js,
            decs (fun t => t == "overflow") CE.overflow.dec js,
            decs (fun t => t == "datepicker") CE.datepicker.dec js,
            decs (fun t => t == "static_select") CE.selectC.dec js⟩ ∧
        BlockElements.total (BlockElements.UnmarshalJSON CE BlockElements.empty (.arr js)).1 =
          (js.filter (fun j => elemTypeRecognized (rawType j))).length) ∧
    ((∀ j ∈ js, contextDecOk CC j = true) →
      (∃ j ∈ js, contextTypeRecognized (rawType j) = false) →
      (ContextElements.UnmarshalJSON CC ContextElements.empty (.arr js)).2 = none ∧
        (ContextElements.UnmarshalJSON CC ContextElements.empty (.arr js)).1 =
          ⟨decs (fun t => t == "image") CC.image.dec js,
            decs (fun t => t == PlainTextType || t == MarkdownType) CC.text.dec js⟩ ∧
        ContextElements.total (ContextElements.UnmarshalJSON CC ContextElements.empty (.arr js)).1 =
          (js.filter (fun j => contextTypeRecognized (rawType j))).length) := by
  have hobj' : ∀ j ∈ js, j.isObjOrNull = true :=
    fun j hj => isObjOrNull_of_isObj j (hobj j hj)
  refine ⟨?_, ?_, ?_⟩
  · intro hdec hex
    have hchar := blocks_char CB js Blocks.empty hobj' hdec
    have h1 : (Blocks.UnmarshalJSON CB Blocks.empty (.arr js)).1 =
        ⟨decs (fun t => t == "actions") CB.action.dec js,
          decs (fun t => t == "context") CB.context.dec js,
          decs (fun t => t == "divider") CB.divider.dec js,
          decs (fun t => t == "image") CB.image.dec js,
          decs (fun t => t == "section") CB.sectionC.dec js⟩ := by
      have := congrArg Prod.fst hchar
      simpa [Blocks.empty] using this
    have l1 := decs_length (fun t => t == "actions") CB.action.dec js
      (fun j hj ht => blocksDecOk_action CB j (hdec j hj) (by simpa using ht))
    have l2 := decs_length (fun t => t == "context") CB.context.dec js
      (fun j hj ht => blocksDecOk_context CB j (hdec j hj) (by simpa using ht))
    have l3 := decs_length (fun t => t == "divider") CB.divider.dec js
      (fun j hj ht => blocksDecOk_divider CB j (hdec j hj) (by simpa using ht))
    have l4 := decs_length (fun t => t == "image") CB.image.dec js
      (fun j hj ht => blocksDecOk_image CB j (hdec j hj) (by simpa using ht))
    have l5 := decs_length (fun t => t == "section") CB.sectionC.dec js
      (fun j hj ht => blocksDecOk_section CB j (hdec j hj) (by simpa using ht))
    refine ⟨congrArg Prod.snd hchar, h1, ?_⟩
    rw [h1]
    simp only [Blocks.total]
    rw [l1, l2, l3, l4, l5]
    exact blocks_filter_count js
  · intro hdec hex
    have hchar := elems_char CE js BlockElements.empty hobj' hdec
    have h1 : (BlockElements.UnmarshalJSON CE BlockElements.empty (.arr js)).1 =
        ⟨decs (fun t => t == "image") CE.image.dec js,
          decs (fun t => t == "button") CE.button.dec js,
          decs (fun t => t == "overflow") CE.overflow.dec js,
          decs (fun t => t == "datepicker") CE.datepicker.dec js,
          decs (fun t => t == "static_select") CE.selectC.dec js⟩ := by
      have := congrArg Prod.fst hchar
      simpa [BlockElements.empty] using this
    have l1 := decs_length (fun t => t == "image") CE.image.dec js
      (fun j hj ht => elemsDecOk_image CE j (hdec j hj) (by simpa using ht))
    have l2 := decs_length (fun t => t == "button") CE.button.dec js
      (fun j hj ht => elemsDecOk_button CE j (hdec j hj) (by simpa using ht))
    have l3 := decs_length (fun t => t == "overflow") CE.overflow.dec js
      (fun j hj ht => elemsDecOk_overflow CE j (hdec j hj) (by simpa using ht))
    have l4 := decs_length (fun t => t == "datepicker") CE.datepicker.dec js
      (fun j hj ht => elemsDecOk_datepicker CE j (hdec j hj) (by simpa using ht))
    have l5 := decs_length (fun t => t == "static_select") CE.selectC.dec js
      (fun j hj ht => elemsDecOk_select CE j (hdec j hj) (by simpa using ht))
    refine ⟨congrArg Prod.snd hchar, h1, ?_⟩
    rw [h1]
    simp only [BlockElements.total]
    rw [l1, l2, l3, l4, l5]
    exact elems_filter_count js
  · intro hdec hex
    have hchar := context_char CC js ContextElements.empty hobj' hdec
    have h1 : (ContextElements.UnmarshalJSON CC ContextElements.empty (.arr js)).1 =
        ⟨decs (fun t => t == "image") CC.image.dec js,
          decs (fun t => t == PlainTextType || t == MarkdownType) CC.text.dec js⟩ := by
      have := congrArg Prod.fst hchar
      simpa [ContextElements.empty] using this
    have l1 := decs_length (fun t => t == "image") CC.image.dec js
      (fun j hj ht => contextDecOk_image CC j (hdec j hj) (by simpa using ht))
    have l2 := decs_length (fun t => t == PlainTextType || t == MarkdownType) CC.text.dec js
      (fun j hj ht => contextDecOk_text CC j (hdec j hj) (by simpa using ht))
    refine ⟨congrArg Prod.snd hchar, h1, ?_⟩
    rw [h1]
    simp only [ContextElements.total]
    rw [l1, l2]
    exact context_filter_count js

/-- C2 witness: a concrete array with one unrecognized element among
recognized ones decodes without error, skips the unrecognized element,
and collects exactly the recognized count. -/
theorem C2_witness :
    (Blocks.UnmarshalJSON okBlockCodecs Blocks.empty
        (.arr [Json.obj [("type", Json.str "mystery")],
          Json.obj [("type", Json.str "divider")]])).2 = none ∧
    Blocks.total (Blocks.UnmarshalJSON okBlockCodecs Blocks.empty
        (.arr [Json.obj [("type", Json.str "mystery")],
          Json.obj [("type", Json.str "divider")]])).1 =
      (([Json.obj [("type", Json.str "mystery")],
          Json.obj [("type", Json.str "divider")]] : List Json).filter
        (fun j => blockTypeRecognized (rawType j))).length :=
  ⟨((C2_amended_unrecognized_skipped okBlockCodecs okElemCodecs okContextCodecs
      [Json.obj [("type", Json.str "mystery")], Json.obj [("type", Json.str "divider")]]
      (by decide)).1 (by decide)
      ⟨Json.obj [("type", Json.str "mystery")], by simp, rfl⟩).1,
    ((C2_amended_unrecognized_skipped okBlockCodecs okElemCodecs okContextCodecs
      [Json.obj [("type", Json.str "mystery")], Json.obj [("type", Json.str "divider")]]
      (by decide)).1 (by decide)
      ⟨Json.obj [("type", Json.str "mystery")], by simp, rfl⟩).2.2⟩

/-- C6 counterexample: the empty `BlockElements` container marshals to JSON
`null` (Go marshals the nil slice as `null`), not to a JSON array, so the
claim fails for the empty container. -/
theorem C6_counterexample_empty_marshals_null :
    BlockElements.MarshalJSON okElemCodecs BlockElements.empty = .null ∧
    Json.null ≠ .arr [] :=
  ⟨rfl, fun h => nomatch h⟩

/-- C6 (amended): every `BlockElements` container holding at least one
element marshals to the single flat JSON array that concatenates its
per-kind accumulators in the fixed kind order image, button, overflow,
date-picker, select, each element encoded by its own per-element encoder;
the empty container marshals to JSON `null` instead. -/
theorem C6_amended_marshal_concatenates (C : ElemCodecs) (e : BlockElements)
    (h : BlockElements.total e ≠ 0) :
    BlockElements.MarshalJSON C e =
      .arr (e.ImageElements.map C.image.enc ++ e.ButtonElements.map C.button.enc ++
        e.OverflowElements.map C.overflow.enc ++
        e.DatePickerElements.map C.datepicker.enc ++
        e.SelectElements.map C.selectC.enc) := by
  have hmap : (toBlockElementSlice e).map (encodeBlockElement C) =
      e.ImageElements.map C.image.enc ++ e.ButtonElements.map C.button.enc ++
        e.OverflowElements.map C.overflow.enc ++
        e.DatePickerElements.map C.datepicker.enc ++
        e.SelectElements.map C.selectC.enc := by
    simp [toBlockElementSlice, encodeBlockElement, List.map_map, Function.comp_def]
  have hne : (toBlockElementSlice e).map (encodeBlockElement C) ≠ [] := by
    rw [hmap]
    intro hc
    simp only [List.append_eq_nil, List.map_eq_nil_iff] at hc
    exact h (by simp [BlockElements.total, hc.1.1.1.1, hc.1.1.1.2, hc.1.1.2,
      hc.1.2, hc.2])
  unfold BlockElements.MarshalJSON
  rw [marshalSlice_ne_nil _ hne, hmap]

/-- C6 witness: a container with one image element marshals to the
one-element array. -/
theorem C6_witness :
    BlockElements.MarshalJSON okElemCodecs ⟨[⟨.obj []⟩], [], [], [], []⟩ =
      .arr [Json.obj []] :=
  C6_amended_marshal_concatenates okElemCodecs ⟨[⟨.obj []⟩], [], [], [], []⟩
    (by decide)

/-- C3 counterexample: the empty `ContextElements` container marshals to
JSON `null`, not to a JSON array, so the claim's "every container"
quantification fails. -/
theorem C3_counterexample_empty_marshals_null :
    ContextElements.MarshalJSON okContextCodecs ContextElements.empty = .null ∧
    ∀ xs, Json.null ≠ .arr xs :=
  ⟨rfl, fun _ h => nomatch h⟩

/-- C3 (amended): every `ContextElements` container holding at least one
element marshals to a single JSON array listing all image elements first,
then all text objects, each group in its stored relative order (the empty
container marshals to JSON `null`); in particular, decoding
`[mrkdwn, image, plain_text]` and re-encoding yields
`[image, mrkdwn, plain_text]`. -/
theorem C3_amended_images_before_texts (C : ContextCodecs) (e : ContextElements)
    (C' : ContextCodecs) (jm ji jp : Json) (xm : TextBlockObject)
    (xi : ImageBlockElement) (xp : TextBlockObject)
    (h : ContextElements.total e ≠ 0)
    (hm : rawType jm = MarkdownType) (hi : rawType ji = "image")
    (hp : rawType jp = PlainTextType)
    (hmo : jm.isObjOrNull = true) (hio : ji.isObjOrNull = true)
    (hpo : jp.isObjOrNull = true)
    (hdm : C'.text.dec jm = .ok xm) (hdi : C'.image.dec ji = .ok xi)
    (hdp : C'.text.dec jp = .ok xp)
    (hem : C'.text.enc xm = jm) (hei : C'.image.enc xi = ji)
    (hep : C'.text.enc xp = jp) :
    ContextElements.MarshalJSON C e =
      .arr (e.ImageElements.map C.image.enc ++ e.TextObjects.map C.text.enc) ∧
    (ContextElements.UnmarshalJSON C' ContextElements.empty (.arr [jm, ji, jp])).2 = none ∧
    ContextElements.MarshalJSON C'
        (ContextElements.UnmarshalJSON C' ContextElements.empty (.arr [jm, ji, jp])).1 =
      .arr [ji, jm, jp] := by
  have hmap : (toMixedElements e).map (encodeMixedElement C) =
      e.ImageElements.map C.image.enc ++ e.TextObjects.map C.text.enc := by
    simp [toMixedElements, encodeMixedElement, List.map_map, Function.comp_def]
  have hne : (toMixedElements e).map (encodeMixedElement C) ≠ [] := by
    rw [hmap]
    intro hc
    simp only [List.append_eq_nil, List.map_eq_nil_iff] at hc
    exact h (by simp [ContextElements.total, hc.1, hc.2])
  have hpart1 : ContextElements.MarshalJSON C e =
      .arr (e.ImageElements.map C.image.enc ++ e.TextObjects.map C.text.enc) := by
    unfold ContextElements.MarshalJSON
    rw [marshalSlice_ne_nil _ hne, hmap]
  have hobj : ∀ j ∈ [jm, ji, jp], j.isObjOrNull = true := by
    intro j hj
    simp only [List.mem_cons, List.not_mem_nil, or_false] at hj
    rcases hj with rfl | rfl | rfl <;> assumption
  have hdec : ∀ j ∈ [jm, ji, jp], contextDecOk C' j = true := by
    intro j hj
    simp only [List.mem_cons, List.not_mem_nil, or_false] at hj
    rcases hj with rfl | rfl | rfl
    · unfold contextDecOk
      rw [if_pos (Or.inr hm), hdm]
      rfl
    · unfold contextDecOk
      rw [if_neg (by simp [hi, PlainTextType, MarkdownType]), if_pos hi, hdi]
      rfl
    · unfold contextDecOk
      rw [if_pos (Or.inl hp), hdp]
      rfl
  have hchar := context_char C' [jm, ji, jp] ContextElements.empty hobj hdec
  have himgs : decs (fun t => t == "image") C'.image.dec [jm, ji, jp] = [xi] := by
    rw [decs_cons_neg _ _ _ _ (by simp [hm, MarkdownType]),
      decs_cons_pos _ _ _ _ xi (by simp [hi]) hdi,
      decs_cons_neg _ _ _ _ (by simp [hp, PlainTextType])]
    rfl
  have htxts : decs (fun t => t == PlainTextType || t == MarkdownType)
      C'.text.dec [jm, ji, jp] = [xm, xp] := by
    rw [decs_cons_pos _ _ _ _ xm (by simp [hm]) hdm,
      decs_cons_neg _ _ _ _ (by simp [hi, PlainTextType, MarkdownType]),
      decs_cons_pos _ _ _ _ xp (by simp [hp]) hdp]
    rfl
  have h1 : (ContextElements.UnmarshalJSON C' ContextElements.empty
      (.arr [jm, ji, jp])).1 = ⟨[xi], [xm, xp]⟩ := by
    have := congrArg Prod.fst hchar
    simpa [ContextElements.empty, himgs, htxts] using this
  refine ⟨hpart1, congrArg Prod.snd hchar, ?_⟩
  rw [h1]
  unfold ContextElements.MarshalJSON
  simp [toMixedElements, encodeMixedElement, marshalSlice, hem, hei, hep]

/-- C3 witness: the spec's concrete example, with store/return codecs. -/
theorem C3_witness :
    ContextElements.MarshalJSON okContextCodecs
        (ContextElements.UnmarshalJSON okContextCodecs ContextElements.empty
          (.arr [.obj [("type", Json.str "mrkdwn")],
            .obj [("type", Json.str "image")],
            .obj [("type", Json.str "plain_text")]])).1 =
      .arr [.obj [("type", Json.str "image")],
        .obj [("type", Json.str "mrkdwn")],
        .obj [("type", Json.str "plain_text")]] :=
  (C3_amended_images_before_texts okContextCodecs ⟨[⟨.obj []⟩], []⟩ okContextCodecs
    (.obj [("type", Json.str "mrkdwn")]) (.obj [("type", Json.str "image")])
    (.obj [("type", Json.str "plain_text")])
    ⟨.obj [("type", Json.str "mrkdwn")]⟩ ⟨.obj [("type", Json.str "image")]⟩
    ⟨.obj [("type", Json.str "plain_text")]⟩
    (by decide) rfl rfl rfl rfl rfl rfl rfl rfl rfl rfl rfl rfl).2.2

/-- C5 counterexample: the empty JSON array (all of whose elements are
vacuously recognized variant objects) decodes without error, but
re-encoding yields JSON `null`, not an array, so the round trip does not
reproduce an array. -/
theorem C5_counterexample_empty_roundtrip :
    (BlockElements.UnmarshalJSON okElemCodecs BlockElements.empty (.arr [])).2 = none ∧
    BlockElements.MarshalJSON okElemCodecs
        (BlockElements.UnmarshalJSON okElemCodecs BlockElements.empty (.arr [])).1 =
      .null ∧
    ∀ xs, Json.null ≠ Json.arr xs :=
  ⟨rfl, rfl, fun _ h => nomatch h⟩

/-- C5 (amended): for every nonempty JSON array of recognized
`BlockElement` variant objects whose payloads decode, and whose
collaborator codecs reproduce the original object on re-encode,
decode-then-encode succeeds and produces the array that groups the
original elements by kind in the accumulator order image, button,
overflow, date-picker, select, keeping each element exactly once and the
relative order within each kind. -/
theorem C5_amended_roundtrip_groups_by_kind (C : ElemCodecs) (js : List Json)
    (hne : js ≠ [])
    (hobj : ∀ j ∈ js, j.isObj = true)
    (hrec : ∀ j ∈ js, elemTypeRecognized (rawType j) = true)
    (hdec : ∀ j ∈ js, elemsDecOk C j = true)
    (hri : ∀ j ∈ js, rawType j = "image" → ∀ x, C.image.dec j = .ok x →
      C.image.enc x = j)
    (hrb : ∀ j ∈ js, rawType j = "button" → ∀ x, C.button.dec j = .ok x →
      C.button.enc x = j)
    (hro : ∀ j ∈ js, rawType j = "overflow" → ∀ x, C.overflow.dec j = .ok x →
      C.overflow.enc x = j)
    (hrd : ∀ j ∈ js, rawType j = "datepicker" → ∀ x, C.datepicker.dec j = .ok x →
      C.datepicker.enc x = j)
    (hrs : ∀ j ∈ js, rawType j = "static_select" → ∀ x, C.selectC.dec j = .ok x →
      C.selectC.enc x = j) :
    (BlockElements.UnmarshalJSON C BlockElements.empty (.arr js)).2 = none ∧
    BlockElements.MarshalJSON C
        (BlockElements.UnmarshalJSON C BlockElements.empty (.arr js)).1 =
      .arr (js.filter (fun j => rawType j == "image") ++
        js.filter (fun j => rawType j == "button") ++
        js.filter (fun j => rawType j == "overflow") ++
        js.filter (fun j => rawType j == "datepicker") ++
        js.filter (fun j => rawType j == "static_select")) := by
  have hobj' : ∀ j ∈ js, j.isObjOrNull = true :=
    fun j hj => isObjOrNull_of_isObj j (hobj j hj)
  have hchar := elems_char C js BlockElements.empty hobj' hdec
  have h1 : (BlockElements.UnmarshalJSON C BlockElements.empty (.arr js)).1 =
      ⟨decs (fun t => t == "image") C.image.dec js,
        decs (fun t => t == "button") C.button.dec js,
        decs (fun t => t == "overflow") C.overflow.dec js,
        decs (fun t => t == "datepicker") C.datepicker.dec js,
        decs (fun t => t == "static_select") C.selectC.dec js⟩ := by
    have := congrArg Prod.fst hchar
    simpa [BlockElements.empty] using this
  have m1 := map_enc_decs (fun t => t == "image") C.image.dec C.image.enc js
    (fun j hj ht => elemsDecOk_image C j (hdec j hj) (by simpa using ht))
    (fun j hj ht x hx => hri j hj (by simpa using ht) x hx)
  have m2 := map_enc_decs (fun t => t == "button") C.button.dec C.button.enc js
    (fun j hj ht => elemsDecOk_button C j (hdec j hj) (by simpa using ht))
    (fun j hj ht x hx => hrb j hj (by simpa using ht) x hx)
  have m3 := map_enc_decs (fun t => t == "overflow") C.overflow.dec C.overflow.enc js
    (fun j hj ht => elemsDecOk_overflow C j (hdec j hj) (by simpa using ht))
    (fun j hj ht x hx => hro j hj (by simpa using ht) x hx)
  have m4 := map_enc_decs (fun t => t == "datepicker") C.datepicker.dec
    C.datepicker.enc js
    (fun j hj ht => elemsDecOk_datepicker C j (hdec j hj) (by simpa using ht))
    (fun j hj ht x hx => hrd j hj (by simpa using ht) x hx)
  have m5 := map_enc_decs (fun t => t == "static_select") C.selectC.dec
    C.selectC.enc js
    (fun j hj ht => elemsDecOk_select C j (hdec j hj) (by simpa using ht))
    (fun j hj ht x hx => hrs j hj (by simpa using ht) x hx)
  have hne' : (js.filter (fun j => rawType j == "image") ++
      js.filter (fun j => rawType j == "button") ++
      js.filter (fun j => rawType j == "overflow") ++
      js.filter (fun j => rawType j == "datepicker") ++
      js.filter (fun j => rawType j == "static_select")) ≠ [] := by
    intro hc
    simp only [List.append_eq_nil] at hc
    obtain ⟨⟨⟨⟨hc1, hc2⟩, hc3⟩, hc4⟩, hc5⟩ := hc
    obtain ⟨j0, rest, rfl⟩ := List.exists_cons_of_ne_nil hne
    have h0' := (by simpa [elemTypeRecognized] using hrec j0 (by simp) :
      (((rawType j0 = "image" ∨ rawType j0 = "button") ∨ rawType j0 = "overflow") ∨
        rawType j0 = "datepicker") ∨ rawType j0 = "static_select")
    rcases h0' with ((((h | h) | h) | h) | h)
    · rw [List.filter_cons_of_pos (by simp [h])] at hc1
      exact List.cons_ne_nil _ _ hc1
    · rw [List.filter_cons_of_pos (by simp [h])] at hc2
      exact List.cons_ne_nil _ _ hc2
    · rw [List.filter_cons_of_pos (by simp [h])] at hc3
      exact List.cons_ne_nil _ _ hc3
    · rw [List.filter_cons_of_pos (by simp [h])] at hc4
      exact List.cons_ne_nil _ _ hc4
    · rw [List.filter_cons_of_pos (by simp [h])] at hc5
      exact List.cons_ne_nil _ _ hc5
  refine ⟨congrArg Prod.snd hchar, ?_⟩
  rw [h1]
  have hmap : (toBlockElementSlice
      ⟨decs (fun t => t == "image") C.image.dec js,
        decs (fun t => t == "button") C.button.dec js,
        decs (fun t => t == "overflow") C.overflow.dec js,
        decs (fun t => t == "datepicker") C.datepicker.dec js,
        decs (fun t => t == "static_select") C.selectC.dec js⟩).map
        (encodeBlockElement C) =
      js.filter (fun j => rawType j == "image") ++
        js.filter (fun j => rawType j == "button") ++
        js.filter (fun j => rawType j == "overflow") ++
        js.filter (fun j => rawType j == "datepicker") ++
        js.filter (fun j => rawType j == "static_select") := by
    simp only [toBlockElementSlice, List.map_append, List.map_map, Function.comp_def,
      encodeBlockElement]
    rw [m1, m2, m3, m4, m5]
  unfold BlockElements.MarshalJSON
  rw [hmap]
  exact marshalSlice_ne_nil _ hne'

/-- C5 witness: a concrete two-element array (button then image) decodes
and re-encodes to the kind-grouped array (image first). -/
theorem C5_witness :
    (BlockElements.UnmarshalJSON okElemCodecs BlockElements.empty
        (.arr [.obj [("type", Json.str "button")],
          .obj [("type", Json.str "image")]])).2 = none ∧
    BlockElements.MarshalJSON okElemCodecs
        (BlockElements.UnmarshalJSON okElemCodecs BlockElements.empty
          (.arr [.obj [("type", Json.str "button")],
            .obj [("type", Json.str "image")]])).1 =
      .arr [.obj [("type", Json.str "image")], .obj [("type", Json.str "button")]] :=
  C5_amended_roundtrip_groups_by_kind okElemCodecs
    [.obj [("type", Json.str "button")], .obj [("type", Json.str "image")]]
    (by simp) (by decide) (by decide) (by decide)
    (fun j hj ht x hx => by injection hx with hh; rw [← hh]; rfl)
    (fun j hj ht x hx => by injection hx with hh; rw [← hh]; rfl)
    (fun j hj ht x hx => by injection hx with hh; rw [← hh]; rfl)
    (fun j hj ht x hx => by injection hx with hh; rw [← hh]; rfl)
    (fun j hj ht x hx => by injection hx with hh; rw [← hh]; rfl)

end SlackBlocks
